import Mathlib

/-!
Verification development for the style-dictionary token exporter.

The definitions below are a shallow embedding of the exporter's composition
core: the main export decision function (src/unnamed/part_000) and the
component-group file generator
(src/exporters/style-dictionary/src/files/component-group-file.ts).
JavaScript arrays become Lean lists (preserving iteration order; a JS `Map`
iterates in insertion order and is embedded as an insertion-ordered
association list), nullable values become `Option`, thrown errors become
`Except.error`, and the opaque token value payloads become strings.

Helpers that live outside the repository sources (the style-file builders,
the deep merger, the SDK theme application, and the name normalizers) are
modelled from the specification; each such definition carries a doc comment
starting with `Modelled from the spec:`.
-/

/-- A design token: identity, name, type tag, opaque value payload, owning
group/collection references and optional brand tag (spec section 3). -/
structure Token where
  id : String
  name : String
  tokenType : String
  value : String
  parentGroupId : Option String
  collectionId : Option String
  brandId : Option String
deriving DecidableEq, Repr

/-- A token group: identity, name, optional parent-group reference. -/
structure TokenGroup where
  id : String
  name : String
  parentGroupId : Option String
  brandId : Option String
deriving DecidableEq, Repr

/-- A token collection: identity (persistentId) and name. -/
structure Collection where
  persistentId : String
  name : String
deriving DecidableEq, Repr

/-- A theme: identity, version identity, name, and its per-token value
overrides (ordered). -/
structure Theme where
  id : String
  idInVersion : String
  name : String
  overrides : List (String × String)
deriving DecidableEq, Repr

/-- A brand entity (used only for the brand-filter lookup). -/
structure Brand where
  id : String
  idInVersion : String
deriving DecidableEq, Repr

/-- The `fileStructure` configuration axis. -/
inductive FileStructure where
  | singleFile
  | separateByType
  | separateByCollection
deriving DecidableEq, Repr

/-- The `exportThemesAs` configuration axis. -/
inductive ThemeExportStyle where
  | nestedThemes
  | separateFiles
  | mergedTheme
  | applyDirectly
deriving DecidableEq, Repr

/-- The exporter configuration consulted by the composition core
(the serialization `indent` option is pass-through formatting and is not
modelled). -/
structure ExporterConfiguration where
  fileStructure : FileStructure
  exportThemesAs : ThemeExportStyle
  exportBaseValues : Bool
  exportOnlyThemedTokens : Bool
deriving DecidableEq, Repr

/-- The export context: optional brand filter and requested theme ids. -/
structure PulsarContext where
  brandId : Option String
  themeIds : List String
deriving DecidableEq, Repr

/-- All entities loaded from the design system before composition starts. -/
structure ExportInput where
  tokens : List Token
  tokenGroups : List TokenGroup
  tokenCollections : List Collection
  themes : List Theme
  brands : List Brand
deriving DecidableEq, Repr

/-- A nested document tree: string keys mapping to leaf values or further
mappings (spec section 3, OutputDocument content). -/
inductive Json where
  | leaf : String → Json
  | obj : List (String × Json) → Json
deriving Repr

/-- An output document: destination directory (`path`), file name, and the
composed content tree.  The serialized string stored by the real
`FileHelper.createTextFile` is the pretty-printing of `content`; byte-level
serialization is out of the embedding's scope, so the tree itself is kept. -/
structure OutputFile where
  path : String
  name : String
  content : Json
deriving Repr

/-- Modelled from the spec: `NamingHelper.codeSafeVariableName(name,
StringCase.kebabCase)` from the external export-utils package (not in src).
Spec section 4.2: normalize the name (case-fold, whitespace/punctuation to a
single separator form).  Alphanumeric characters are lower-cased, every other
character becomes the separator. -/
def normChar (c : Char) : Char :=
  if c.isAlpha then c.toLower else if c.isDigit then c else '-'

/-- Whitespace test for the trimming step of the name normalization. -/
def isSpaceChar (c : Char) : Bool :=
  c == ' ' || c == '\t' || c == '\n' || c == '\r'

/-- Surrounding-whitespace trim on raw character data. -/
def trimChars (l : List Char) : List Char :=
  ((l.dropWhile isSpaceChar).reverse.dropWhile isSpaceChar).reverse

/-- Modelled from the spec: kebab-case normalization of a name (see
`normChar`): trim surrounding whitespace, then normalize each character. -/
def kebabName (s : String) : String :=
  String.mk ((trimChars s.data).map normChar)

/-- Character-wise lower-casing (the embedding of JavaScript's
`toLowerCase()` on the names this code ever lowercases). -/
def lowerString (s : String) : String :=
  String.mk (s.data.map Char.toLower)

/-- Modelled from the spec: `ThemeHelper.getThemeIdentifier(theme,
StringCase.kebabCase)` from the external export-utils package (not in src):
the theme's normalized name. -/
def themeIdentifierKebab (t : Theme) : String := kebabName t.name

/-- Modelled from the spec: `ThemeHelper.getThemeIdentifier(theme,
StringCase.camelCase)`; the camel-case variant simply drops the separators of
the normalized name. -/
def themeIdentifierCamel (t : Theme) : String :=
  String.mk ((kebabName t.name).toList.filter (fun c => c != '-'))

/-- Modelled from the spec (section 4.3): applying one theme's overrides to a
single token; a token with no applicable override retains its original value
and identity. -/
def applyThemeToToken (theme : Theme) (t : Token) : Token :=
  match theme.overrides.find? (fun p => p.1 == t.id) with
  | some p => { t with value := p.2 }
  | none => t

/-- Modelled from the spec (section 4.3):
`sdk.tokens.computeTokensByApplyingThemes(allTokens, subset, themes)` from the
external SDK: overrides are applied sequentially in list order, later themes
winning on conflicting tokens.  The first argument (the full token set) is
part of the SDK signature but does not influence the overlay of the subset. -/
def computeTokensByApplyingThemes (_allTokens : List Token) (subset : List Token)
    (themes : List Theme) : List Token :=
  themes.foldl (fun acc th => acc.map (applyThemeToToken th)) subset

/-- Modelled from the spec (section 4.3): `ThemeHelper.filterThemedTokens` —
the theming-diff predicate, keeping exactly the tokens whose value actually
changed under the theme (overlaid value compared to the original value). -/
def filterThemedTokens (tokens : List Token) (theme : Theme) : List Token :=
  tokens.filter (fun t => (applyThemeToToken theme t).value != t.value)

/-- Modelled from the spec: the fixed `TokenType` enumeration of the external
SDK (`Object.values(TokenType)`); the composition rules only need it to be a
fixed ordered list of type tags. -/
def tokenTypes : List String :=
  ["color", "typography", "dimension", "shadow", "border", "string"]

/-- Modelled from the spec (section 6): `processTokensToObject` from
src/files/style-file.ts (not under src/) wrapping the tokens-to-tree
capability: builds the nested mapping for a token list, or the empty sentinel
(`none`) when the list is empty, which the core treats as "skip this
document".  A themed call nests the value under a theme-keyed entry (spec
section 4.4, NestedThemes example). -/
def processTokensToObject (tokens : List Token) (_groups : List TokenGroup)
    (theme : Option Theme) (_collections : List Collection)
    (_allTokens : List Token) : Option Json :=
  if tokens.isEmpty then none
  else
    some (Json.obj (tokens.map (fun t =>
      match theme with
      | none => (t.name, Json.leaf t.value)
      | some th => (t.name, Json.obj [(kebabName th.name, Json.leaf t.value)]))))

/-- Nesting depth of a document tree (recursion measure for `deepMerge`). -/
def jsonDepth : Json → Nat
  | .leaf _ => 0
  | .obj es => (es.attach.map (fun p => jsonDepth p.1.2)).foldl max 0 + 1
termination_by j => sizeOf j
decreasing_by
  rename_i es
  obtain ⟨⟨a, b⟩, hp⟩ := p
  have h1 : sizeOf (a, b) < sizeOf es := List.sizeOf_lt_of_mem hp
  simp at h1 ⊢
  omega

/-- Recursion fuel variant of `deepMerge` (the nesting depth of the first
tree bounds the recursion, so the fuel never runs out on the recursive
calls actually made). -/
def deepMergeFuel : Nat → Json → Json → Json
  | 0, _, b => b
  | Nat.succ n, Json.obj a, Json.obj b =>
      Json.obj
        ((a.map (fun p =>
          match b.find? (fun q => q.1 == p.1) with
          | some q => (p.1, deepMergeFuel n p.2 q.2)
          | none => p)) ++
         b.filter (fun q => (a.find? (fun p => p.1 == q.1)).isNone))
  | Nat.succ _, _, b => b

/-- Modelled from the spec (section 4.1): `deepMerge` from
src/utils/token-hierarchy.ts (not under src/).  Keys present in both inputs
with mapping values on both sides merge recursively; a leaf on either side is
overwritten by `b`; keys present in only one input are copied through; key
order is `a`'s keys followed by `b`'s new keys. -/
def deepMerge (a b : Json) : Json :=
  deepMergeFuel (jsonDepth a) a b

/-- Modelled from the spec: helper mirroring
`(baseFile as any).name?.replace(".json", "")` on generated file names, which
always end in `.json` and (being kebab-normalized) contain no earlier `.`. -/
def stripJsonEnding (s : String) : String :=
  if ".json".data.isSuffixOf s.data then
    String.mk (s.data.take (s.data.length - 5))
  else s

/-- Modelled from the spec: `combinedStyleOutputFile` from
src/files/style-file.ts (not under src/): one document holding all the given
tokens, placed at the root or under the theme path; a themed call with a
non-empty path honours the `exportOnlyThemedTokens` skipping rule (spec
section 4.4), mirroring the condition visible in
`componentGroupStyleOutputFiles`; the empty tree sentinel skips the
document. -/
def combinedStyleOutputFile (cfg : ExporterConfiguration) (tokens : List Token)
    (groups : List TokenGroup) (themePath : String) (theme : Option Theme)
    (collections : List Collection) : Option OutputFile :=
  let finalTokens :=
    match theme with
    | some th =>
        if themePath != "" && cfg.exportOnlyThemedTokens then
          filterThemedTokens tokens th
        else tokens
    | none => tokens
  match processTokensToObject finalTokens groups theme collections tokens with
  | none => none
  | some obj =>
      some { path := if themePath == "" then "./" else "./" ++ themePath,
             name := "tokens.json", content := obj }

/-- Modelled from the spec: `styleOutputFile` from src/files/style-file.ts
(not under src/): one document per token type, named after the type, placed at
the root or under the theme path; same skipping rule and empty sentinel as
`combinedStyleOutputFile`. -/
def styleOutputFile (cfg : ExporterConfiguration) (ty : String)
    (tokens : List Token) (groups : List TokenGroup) (themePath : String)
    (theme : Option Theme) (collections : List Collection) : Option OutputFile :=
  let typeTokens := tokens.filter (fun t => t.tokenType == ty)
  let finalTokens :=
    match theme with
    | some th =>
        if themePath != "" && cfg.exportOnlyThemedTokens then
          filterThemedTokens typeTokens th
        else typeTokens
    | none => typeTokens
  match processTokensToObject finalTokens groups theme collections tokens with
  | none => none
  | some obj =>
      some { path := if themePath == "" then "./" else "./" ++ themePath,
             name := ty ++ ".json", content := obj }

/-- Modelled from the spec: `combinedCollectionStyleOutputFile` from
src/files/style-file.ts (not under src/): one combined document for a
collection's tokens, named after the normalized collection name, placed at the
root or under the theme path (COLLECTION_EXPORT.md directory rules); same
skipping rule and empty sentinel as `combinedStyleOutputFile`. -/
def combinedCollectionStyleOutputFile (cfg : ExporterConfiguration)
    (collection : Collection) (tokens : List Token) (groups : List TokenGroup)
    (themePath : String) (theme : Option Theme) (collections : List Collection) :
    Option OutputFile :=
  let collectionTokens := tokens.filter
    (fun t => t.collectionId == some collection.persistentId)
  let finalTokens :=
    match theme with
    | some th =>
        if themePath != "" && cfg.exportOnlyThemedTokens then
          filterThemedTokens collectionTokens th
        else collectionTokens
    | none => collectionTokens
  match processTokensToObject finalTokens groups theme collections tokens with
  | none => none
  | some obj =>
      some { path := if themePath == "" then "./" else "./" ++ themePath,
             name := kebabName collection.name ++ ".json", content := obj }

/-- The hard-coded vocabulary of known component names
(component-group-file.ts, line 59). -/
def knownComponents : List String :=
  ["button", "accordion", "badge", "card", "input", "dialog", "dropdown",
   "checkbox", "radio", "switch", "tab", "toast", "tooltip"]

/-- Whether a group's (lower-cased) name is a known component name
(component-group-file.ts, line 58-61). -/
def isKnownComponentGroup (g : TokenGroup) : Bool :=
  knownComponents.contains (lowerString g.name)

/-- The ancestor walk of `componentGroupStyleOutputFiles`
(component-group-file.ts, lines 52-67), fuel-indexed because the source's
`while` loop carries no hop bound:
`some (some g)` means the loop exited after finding the known-component
ancestor `g`; `some none` means the loop exited with the chain exhausted (a
missing or rootless group); `none` means the loop was still running when the
fuel ran out — on such inputs the source loop never exits. -/
def componentWalk (groups : List TokenGroup) : Nat → Option String → Option (Option String)
  | _, none => some none
  | 0, some _ => none
  | Nat.succ n, some cur =>
    match groups.find? (fun g => g.id == cur) with
    | none => some none
    | some g =>
      if isKnownComponentGroup g then some (some cur)
      else componentWalk groups n g.parentGroupId

/-- Total wrapper for the ancestor walk used inside the embedded composer:
under the data-model invariant that parent chains terminate (spec section 3),
`groups.length + 1` steps always complete the walk; the fuel-exhausted case
(where the source code would loop forever, see the C7 claim) is mapped to the
fallback parent id so the embedding stays total. -/
def findComponentGroup (groups : List TokenGroup) (parentId : String) : String :=
  match componentWalk groups (groups.length + 1) (some parentId) with
  | some (some g) => g
  | some none => parentId
  | none => parentId

/-- The insertion-ordered grouping of tokens by resolved component group
(component-group-file.ts, lines 43-74); a JS `Map` preserves insertion order,
embedded as an association list: new keys are appended, existing keys have the
token pushed onto their bucket.  Tokens without a parent group are skipped. -/
def groupTokensByComponent (groups : List TokenGroup) (tokens : List Token) :
    List (String × List Token) :=
  tokens.foldl (fun acc t =>
    match t.parentGroupId with
    | none => acc
    | some pid =>
      let gid := findComponentGroup groups pid
      if acc.any (fun p => p.1 == gid) then
        acc.map (fun p => if p.1 == gid then (p.1, p.2 ++ [t]) else p)
      else acc ++ [(gid, [t])]) []

/-- The per-group file emission of `componentGroupStyleOutputFiles`
(component-group-file.ts, lines 77-109): for each component-group bucket, look
up the group (skipping dangling ids), build the token object (skipping the
empty sentinel), and emit `componentName.json` (theme path infixed when
present) under the `./components` directory. -/
def componentGroupFilesCore (collection : Collection)
    (collectionTokens : List Token) (allTokens : List Token)
    (tokenGroups : List TokenGroup) (themePath : String) (theme : Option Theme)
    (collections : List Collection) : List OutputFile :=
  let _ := collection
  (groupTokensByComponent tokenGroups collectionTokens).filterMap (fun p =>
    match tokenGroups.find? (fun g => g.id == p.1) with
    | none => none
    | some parentGroup =>
      match processTokensToObject p.2 tokenGroups theme collections allTokens with
      | none => none
      | some obj =>
        let componentName := kebabName parentGroup.name
        let fileName :=
          if themePath == "" then componentName ++ ".json"
          else componentName ++ "." ++ themePath ++ ".json"
        some { path := "./components", name := fileName, content := obj })

/-- `componentGroupStyleOutputFiles` (component-group-file.ts): filters the
collection's tokens, applies the `exportOnlyThemedTokens` skip for themed
calls (lines 34-40: only when a theme path and a theme are both present), then
groups and emits per-component files.  `rand` models the `Math.random()` call
feeding the unused `callId` local (line 27). -/
def componentGroupStyleOutputFiles (cfg : ExporterConfiguration) (rand : String)
    (collection : Collection) (tokens : List Token)
    (tokenGroups : List TokenGroup) (themePath : String) (theme : Option Theme)
    (collections : List Collection) : List OutputFile :=
  let _callId := rand
  let collectionTokens := tokens.filter
    (fun t => t.collectionId == some collection.persistentId)
  match theme with
  | some th =>
    if themePath != "" && cfg.exportOnlyThemedTokens then
      let themedOnly := filterThemedTokens collectionTokens th
      if themedOnly.isEmpty then []
      else componentGroupFilesCore collection themedOnly tokens tokenGroups
             themePath theme collections
    else componentGroupFilesCore collection collectionTokens tokens tokenGroups
           themePath theme collections
  | none => componentGroupFilesCore collection collectionTokens tokens
      tokenGroups themePath theme collections

/-- Drops the null entries from a list of output files
(`processOutputFiles`, part_000 lines 16-18). -/
def processOutputFiles (files : List (Option OutputFile)) : List OutputFile :=
  files.filterMap id

/-- The destination-identity key used by the dedupe pass
(part_000 lines 383-384: path and file name joined by a slash). -/
def fileId (f : OutputFile) : String :=
  f.path ++ "/" ++ f.name

/-- Worker for `uniqueFiles`: keeps an element exactly when no earlier element
had the same identity key, carrying the set of keys already seen. -/
def uniqueFilesAux (seen : List String) : List OutputFile → List OutputFile
  | [] => []
  | f :: rest =>
    if seen.contains (fileId f) then uniqueFilesAux seen rest
    else f :: uniqueFilesAux (fileId f :: seen) rest

/-- The dedupe pass of the SeparateFiles-by-collection branch (part_000 lines
380-387): `filter((file, index, self) => index === self.findIndex(...))`, i.e.
scan in generation order and keep only the first file per identity key. -/
def uniqueFiles (files : List OutputFile) : List OutputFile :=
  uniqueFilesAux [] files

/-- Collections that own at least one token (part_000 lines 131-133 and the
identical filters of the other by-collection branches). -/
def collectionsWithTokensOf (collections : List Collection)
    (tokens : List Token) : List Collection :=
  collections.filter
    (fun c => tokens.any (fun t => t.collectionId == some c.persistentId))

/-- Whether a collection name normalizes to `global` or `alias`
(part_000 lines 136-139 and matching filters). -/
def isGlobalAliasName (name : String) : Bool :=
  kebabName name == "global" || kebabName name == "alias"

/-- Whether a collection name normalizes to `components` or `component`
(part_000 lines 271-274 and 526-529). -/
def isComponentsName (name : String) : Bool :=
  kebabName name == "components" || kebabName name == "component"

/-- The hard-coded brand-name vocabulary (part_000 line 279). -/
def brandNamesList : List String :=
  ["zest", "factor", "chefsplate", "everyplate", "factorform", "factorui2",
   "goodchop", "greenchef", "hellofresh", "thepetstable", "youfoodz"]

/-- Whether a collection name normalizes to a brand name or carries the brand
name marker (part_000 lines 276-280). -/
def isBrandName (name : String) : Bool :=
  "brand-".data.isPrefixOf (kebabName name).data ||
    brandNamesList.contains (kebabName name)

/-- The global/alias collections of the separate-files branch
(part_000 lines 266-269). -/
def globalAliasCollectionsOf (collections : List Collection)
    (tokens : List Token) : List Collection :=
  (collectionsWithTokensOf collections tokens).filter
    (fun c => isGlobalAliasName c.name)

/-- The components collections (part_000 lines 271-274 and 526-529). -/
def componentsCollectionsOf (collections : List Collection)
    (tokens : List Token) : List Collection :=
  (collectionsWithTokensOf collections tokens).filter
    (fun c => isComponentsName c.name)

/-- The brand collections of the separate-files branch (part_000 lines
276-280); computed by the source but never used afterwards. -/
def brandCollectionsOf (collections : List Collection)
    (tokens : List Token) : List Collection :=
  (collectionsWithTokensOf collections tokens).filter
    (fun c => isBrandName c.name)

/-- The residual collections of the separate-files branch (part_000 lines
283-291): neither global/alias, nor components, nor brand-named. -/
def sfOtherCollectionsOf (collections : List Collection)
    (tokens : List Token) : List Collection :=
  (collectionsWithTokensOf collections tokens).filter
    (fun c => !isGlobalAliasName c.name && !isComponentsName c.name &&
              !isBrandName c.name)

/-- The collections receiving base files in the separate-files branch beyond
global/alias and components (part_000 lines 363-370); note that unlike
`sfOtherCollectionsOf` this set keeps the brand-named collections. -/
def sfOtherBaseCollectionsOf (collections : List Collection)
    (tokens : List Token) : List Collection :=
  (collectionsWithTokensOf collections tokens).filter
    (fun c => !isGlobalAliasName c.name && !isComponentsName c.name)

/-- The themed sub-call sequence of the NestedThemes branches (part_000 lines
93-107, 164-172, 215-223) with the configuration state made explicit: for each
theme the source saves `exportBaseValues`, sets it to `false` on the shared
configuration, runs the builder (which therefore observes the suppressed
value), and restores the saved value.  The pair returned is the list of
generated files and the configuration state after the whole sequence. -/
def nestedThemeFilesGo (build : ExporterConfiguration → Theme → Option OutputFile) :
    List Theme → List (Option OutputFile) → ExporterConfiguration →
    List (Option OutputFile) × ExporterConfiguration
  | [], acc, st => (acc, st)
  | theme :: rest, acc, st =>
    let originalExportBaseValues := st.exportBaseValues
    let st1 := { st with exportBaseValues := false }
    let file := build st1 theme
    let st2 := { st1 with exportBaseValues := originalExportBaseValues }
    nestedThemeFilesGo build rest (acc ++ [file]) st2

/-- Entry point of the themed sub-call sequence (see `nestedThemeFilesGo`). -/
def nestedThemeFilesState (build : ExporterConfiguration → Theme → Option OutputFile)
    (cfg : ExporterConfiguration) (themes : List Theme) :
    List (Option OutputFile) × ExporterConfiguration :=
  nestedThemeFilesGo build themes [] cfg

/-- The merge fold of the NestedThemes branches (part_000 lines 111-126 and
the identical reduces at 175-190 and 226-241): fold base and themed files
left-to-right, skipping nulls, deep-merging contents, and keeping the latest
file's destination. -/
def mergeFileFold (files : List (Option OutputFile)) : Option OutputFile :=
  files.foldl (fun merged file =>
    match file with
    | none => merged
    | some f =>
      match merged with
      | none => some f
      | some m => some { f with content := deepMerge m.content f.content }) none

/-- The per-collection file of the NestedThemes by-collection branch
(part_000 lines 146-191): global/alias collections get only the base file
(and only when `exportBaseValues` is on); other collections get the base file
merged with one themed file per theme, the themed calls running with the
shared `exportBaseValues` flag suppressed. -/
def nestedCollectionValueFile (cfg : ExporterConfiguration)
    (themesToApply : List Theme) (tokens : List Token)
    (tokenGroups : List TokenGroup) (tokenCollections : List Collection)
    (collection : Collection) : Option OutputFile :=
  if isGlobalAliasName collection.name then
    if cfg.exportBaseValues then
      combinedCollectionStyleOutputFile cfg collection tokens tokenGroups ""
        none tokenCollections
    else none
  else
    let baseFile :=
      if cfg.exportBaseValues then
        combinedCollectionStyleOutputFile cfg collection tokens tokenGroups ""
          none tokenCollections
      else none
    let themeFiles := (nestedThemeFilesState (fun st theme =>
      combinedCollectionStyleOutputFile st collection
        (computeTokensByApplyingThemes tokens tokens [theme]) tokenGroups ""
        (some theme) tokenCollections) cfg themesToApply).1
    mergeFileFold (baseFile :: themeFiles)

/-- The NestedThemes case of the export switch (part_000 lines 70-243). -/
def nestedThemesBranch (cfg : ExporterConfiguration)
    (themesToApply : List Theme) (tokens : List Token)
    (tokenGroups : List TokenGroup) (tokenCollections : List Collection) :
    List OutputFile :=
  if cfg.fileStructure = FileStructure.singleFile then
    let baseFile :=
      if cfg.exportBaseValues then
        combinedStyleOutputFile cfg tokens tokenGroups "" none tokenCollections
      else none
    let themeFiles := (nestedThemeFilesState (fun st theme =>
      combinedStyleOutputFile st
        (computeTokensByApplyingThemes tokens tokens [theme]) tokenGroups ""
        (some theme) tokenCollections) cfg themesToApply).1
    processOutputFiles [mergeFileFold (baseFile :: themeFiles)]
  else if cfg.fileStructure = FileStructure.separateByCollection then
    processOutputFiles
      ((collectionsWithTokensOf tokenCollections tokens).map
        (nestedCollectionValueFile cfg themesToApply tokens tokenGroups
          tokenCollections))
  else
    processOutputFiles (tokenTypes.map (fun ty =>
      let baseFile :=
        if cfg.exportBaseValues then
          styleOutputFile cfg ty tokens tokenGroups "" none tokenCollections
        else none
      let themeFiles := (nestedThemeFilesState (fun st theme =>
        styleOutputFile st ty
          (computeTokensByApplyingThemes tokens tokens [theme]) tokenGroups ""
          (some theme) tokenCollections) cfg themesToApply).1
      mergeFileFold (baseFile :: themeFiles)))

/-- The themed component documents of the SeparateFiles by-collection branch
(part_000 lines 299-322): regenerate the base component files of the
collection, then for each of them emit one themed document under
`./brand/themeName` whose content is built from the whole collection's themed
token set. -/
def componentThemeFilesFor (cfg : ExporterConfiguration) (rand : String)
    (collection : Collection) (tokens : List Token)
    (tokenGroups : List TokenGroup) (tokenCollections : List Collection)
    (theme : Theme) (themedTokens : List Token) (themeName : String) :
    List OutputFile :=
  let baseComponentFiles := componentGroupStyleOutputFiles cfg rand collection
    tokens tokenGroups "" none tokenCollections
  (baseComponentFiles.map (fun baseFile =>
    let collectionThemedTokens := themedTokens.filter
      (fun t => t.collectionId == some collection.persistentId)
    match processTokensToObject collectionThemedTokens tokenGroups (some theme)
        tokenCollections tokens with
    | none => none
    | some obj =>
      let componentName := stripJsonEnding baseFile.name
      some { path := "./brand/" ++ themeName,
             name := componentName ++ ".json", content := obj })).filterMap id

/-- The SeparateFiles by-collection branch (part_000 lines 259-389):
themed component and residual-collection documents per theme, one brand
summary document per theme, base documents (global/alias unconditionally,
components and residual collections only when `exportBaseValues` is on), and
the first-wins dedupe over the concatenation. -/
def separateFilesByCollection (cfg : ExporterConfiguration) (rand : String)
    (themesToApply : List Theme) (tokens : List Token)
    (tokenGroups : List TokenGroup) (tokenCollections : List Collection) :
    List OutputFile :=
  let globalAliasCollections := globalAliasCollectionsOf tokenCollections tokens
  let componentsCollections := componentsCollectionsOf tokenCollections tokens
  let otherCollections := sfOtherCollectionsOf tokenCollections tokens
  let themeFiles : List (Option OutputFile) := themesToApply.flatMap (fun theme =>
    let themedTokens := computeTokensByApplyingThemes tokens tokens [theme]
    let themeName := themeIdentifierKebab theme
    let componentThemeFiles := componentsCollections.flatMap (fun collection =>
      componentThemeFilesFor cfg rand collection tokens tokenGroups
        tokenCollections theme themedTokens themeName)
    let otherThemeFiles := otherCollections.map (fun collection =>
      combinedCollectionStyleOutputFile cfg collection themedTokens tokenGroups
        themeName (some theme) tokenCollections)
    (componentThemeFiles.map some) ++ otherThemeFiles)
  let brandFiles : List OutputFile := (themesToApply.map (fun theme =>
    let themedTokens := computeTokensByApplyingThemes tokens tokens [theme]
    let themeName := themeIdentifierKebab theme
    match processTokensToObject themedTokens tokenGroups (some theme)
        tokenCollections tokens with
    | none => none
    | some obj =>
      some { path := "./brand", name := themeName ++ ".json",
             content := obj })).filterMap id
  let globalAliasBaseFiles := globalAliasCollections.map (fun collection =>
    combinedCollectionStyleOutputFile cfg collection tokens tokenGroups ""
      none tokenCollections)
  let componentBaseFiles : List OutputFile :=
    if cfg.exportBaseValues then
      componentsCollections.flatMap (fun collection =>
        componentGroupStyleOutputFiles cfg rand collection tokens tokenGroups
          "" none tokenCollections)
    else []
  let otherBaseFiles :=
    if cfg.exportBaseValues then
      (sfOtherBaseCollectionsOf tokenCollections tokens).map (fun collection =>
        combinedCollectionStyleOutputFile cfg collection tokens tokenGroups ""
          none tokenCollections)
    else []
  let baseFiles := globalAliasBaseFiles ++ (componentBaseFiles.map some) ++
    otherBaseFiles
  let allFiles := (baseFiles ++ themeFiles ++ (brandFiles.map some)).filterMap id
  uniqueFiles allFiles

/-- The SeparateFiles case of the export switch (part_000 lines 245-417). -/
def separateFilesBranch (cfg : ExporterConfiguration) (rand : String)
    (themesToApply : List Theme) (tokens : List Token)
    (tokenGroups : List TokenGroup) (tokenCollections : List Collection) :
    List OutputFile :=
  if cfg.fileStructure = FileStructure.singleFile then
    let themeFiles := themesToApply.map (fun theme =>
      let themedTokens := computeTokensByApplyingThemes tokens tokens [theme]
      let themePath := themeIdentifierCamel theme
      combinedStyleOutputFile cfg themedTokens tokenGroups themePath
        (some theme) tokenCollections)
    let baseFile :=
      if cfg.exportBaseValues then
        combinedStyleOutputFile cfg tokens tokenGroups "" none tokenCollections
      else none
    processOutputFiles (baseFile :: themeFiles)
  else if cfg.fileStructure = FileStructure.separateByCollection then
    separateFilesByCollection cfg rand themesToApply tokens tokenGroups
      tokenCollections
  else
    let themeFiles := themesToApply.flatMap (fun theme =>
      let themedTokens := computeTokensByApplyingThemes tokens tokens [theme]
      let themePath := themeIdentifierCamel theme
      tokenTypes.map (fun ty =>
        styleOutputFile cfg ty themedTokens tokenGroups themePath (some theme)
          tokenCollections))
    let baseFiles :=
      if cfg.exportBaseValues then
        tokenTypes.map (fun ty =>
          styleOutputFile cfg ty tokens tokenGroups "" none tokenCollections)
      else []
    processOutputFiles (baseFiles ++ themeFiles)

/-- The MergedTheme case of the export switch (part_000 lines 419-505). -/
def mergedThemeBranch (cfg : ExporterConfiguration)
    (themesToApply : List Theme) (tokens : List Token)
    (tokenGroups : List TokenGroup) (tokenCollections : List Collection) :
    List OutputFile :=
  if cfg.fileStructure = FileStructure.singleFile then
    let baseFile :=
      if cfg.exportBaseValues then
        combinedStyleOutputFile cfg tokens tokenGroups "" none tokenCollections
      else none
    let themedTokens := computeTokensByApplyingThemes tokens tokens themesToApply
    let mergedThemeFile := combinedStyleOutputFile cfg themedTokens tokenGroups
      "themed" themesToApply.head? tokenCollections
    processOutputFiles [baseFile, mergedThemeFile]
  else if cfg.fileStructure = FileStructure.separateByCollection then
    let collectionsWithTokens := collectionsWithTokensOf tokenCollections tokens
    let otherCollections := collectionsWithTokens.filter
      (fun c => !isGlobalAliasName c.name)
    let baseTokenFiles :=
      if cfg.exportBaseValues then
        collectionsWithTokens.map (fun collection =>
          combinedCollectionStyleOutputFile cfg collection tokens tokenGroups
            "" none tokenCollections)
      else []
    let themedTokens := computeTokensByApplyingThemes tokens tokens themesToApply
    let mergedThemeFiles := otherCollections.map (fun collection =>
      combinedCollectionStyleOutputFile cfg collection themedTokens tokenGroups
        "themed" themesToApply.head? tokenCollections)
    processOutputFiles (baseTokenFiles ++ mergedThemeFiles)
  else
    let baseTokenFiles :=
      if cfg.exportBaseValues then
        tokenTypes.map (fun ty =>
          styleOutputFile cfg ty tokens tokenGroups "" none tokenCollections)
      else []
    let themedTokens := computeTokensByApplyingThemes tokens tokens themesToApply
    let mergedThemeFiles := tokenTypes.map (fun ty =>
      styleOutputFile cfg ty themedTokens tokenGroups "themed"
        themesToApply.head? tokenCollections)
    processOutputFiles (baseTokenFiles ++ mergedThemeFiles)

/-- The per-collection no-theme branch (part_000 lines 519-547): components
collections expand into per-component-group files, every other collection
(with tokens) gets one combined file; note that neither site is gated on
`exportBaseValues`. -/
def noThemeCollectionBranch (cfg : ExporterConfiguration) (rand : String)
    (tokens : List Token) (tokenGroups : List TokenGroup)
    (tokenCollections : List Collection) : List OutputFile :=
  let componentsCollections := componentsCollectionsOf tokenCollections tokens
  let otherCollections := (collectionsWithTokensOf tokenCollections tokens).filter
    (fun c => !isComponentsName c.name)
  let componentFiles := componentsCollections.flatMap (fun collection =>
    componentGroupStyleOutputFiles cfg rand collection tokens tokenGroups ""
      none tokenCollections)
  let otherCollectionFiles := otherCollections.map (fun collection =>
    combinedCollectionStyleOutputFile cfg collection tokens tokenGroups ""
      none tokenCollections)
  processOutputFiles ((componentFiles.map some) ++ otherCollectionFiles)

/-- The generation tail reached when no theme switch case returned
(part_000 lines 519-562): the by-collection branch runs only when no themes
were requested (line 519 checks the requested theme ids, so the ApplyDirectly
fall-through skips it); otherwise one combined file (single-file mode) or one
file per token type, both gated on `exportBaseValues`. -/
def noThemeTail (cfg : ExporterConfiguration) (rand : String)
    (themeIdsEmpty : Bool) (tokens : List Token)
    (tokenGroups : List TokenGroup) (tokenCollections : List Collection) :
    List OutputFile :=
  if cfg.fileStructure = FileStructure.separateByCollection ∧ themeIdsEmpty = true then
    noThemeCollectionBranch cfg rand tokens tokenGroups tokenCollections
  else if cfg.fileStructure = FileStructure.singleFile then
    processOutputFiles
      [if cfg.exportBaseValues then
        combinedStyleOutputFile cfg tokens tokenGroups "" none tokenCollections
       else none]
  else
    processOutputFiles
      (if cfg.exportBaseValues then
        tokenTypes.map (fun ty =>
          styleOutputFile cfg ty tokens tokenGroups "" none tokenCollections)
       else [])

/-- The whole generation step after brand filtering and theme resolution
(part_000 lines 68-562): the theme-style switch when themes were requested
(ApplyDirectly overlays all themes onto the token set and falls through), and
the no-theme tail otherwise. -/
def generateFiles (cfg : ExporterConfiguration) (rand : String)
    (themeIdsEmpty : Bool) (themesToApply : List Theme) (tokens : List Token)
    (tokenGroups : List TokenGroup) (tokenCollections : List Collection) :
    List OutputFile :=
  if themeIdsEmpty then
    noThemeTail cfg rand true tokens tokenGroups tokenCollections
  else
    match cfg.exportThemesAs with
    | ThemeExportStyle.nestedThemes =>
        nestedThemesBranch cfg themesToApply tokens tokenGroups tokenCollections
    | ThemeExportStyle.separateFiles =>
        separateFilesBranch cfg rand themesToApply tokens tokenGroups
          tokenCollections
    | ThemeExportStyle.mergedTheme =>
        mergedThemeBranch cfg themesToApply tokens tokenGroups tokenCollections
    | ThemeExportStyle.applyDirectly =>
        let themedTokens := computeTokensByApplyingThemes tokens tokens themesToApply
        noThemeTail cfg rand false themedTokens tokenGroups tokenCollections

/-- The lookup predicate of the brand filter (part_000 line 48). -/
def matchesBrandId (b : Brand) (bid : String) : Bool :=
  b.id == bid || b.idInVersion == bid

/-- The lookup predicate of the theme resolution (part_000 line 61). -/
def matchesThemeId (t : Theme) (tid : String) : Bool :=
  t.id == tid || t.idInVersion == tid

/-- The theme resolution (part_000 lines 60-66): map each requested theme id
to the loaded theme matching it, throwing on the first id that matches no
loaded theme. -/
def resolveThemes (themes : List Theme) : List String → Except String (List Theme)
  | [] => Except.ok []
  | tid :: rest =>
    match themes.find? (fun t => matchesThemeId t tid) with
    | none => Except.error ("Unable to find theme " ++ tid)
    | some th => (resolveThemes themes rest).map (fun l => th :: l)

/-- The brand filter (part_000 lines 45-55): when a brand is requested, look
it up (fatal error when unknown) and keep only the tokens and groups tagged
with it. -/
def brandFilterStep (ctx : PulsarContext) (inp : ExportInput) :
    Except String (List Token × List TokenGroup) :=
  match ctx.brandId with
  | none => Except.ok (inp.tokens, inp.tokenGroups)
  | some bid =>
    match inp.brands.find? (fun b => matchesBrandId b bid) with
    | none => Except.error ("Unable to find brand " ++ bid ++ ".")
    | some brand =>
      Except.ok (inp.tokens.filter (fun t => t.brandId == some brand.id),
                 inp.tokenGroups.filter (fun g => g.brandId == some brand.id))

/-- The whole export entry point (part_000 lines 33-563): brand filtering
(fatal lookup error when the requested brand is unknown), theme resolution
(fatal lookup error when a requested theme id is unknown), then pure document
generation.  `rand` models the process's source of randomness
(`Math.random()`), consumed only by the dead `callId` local. -/
def pulsarExport (cfg : ExporterConfiguration) (ctx : PulsarContext)
    (inp : ExportInput) (rand : String) : Except String (List OutputFile) :=
  match brandFilterStep ctx inp with
  | Except.error e => Except.error e
  | Except.ok (tokens, tokenGroups) =>
    if ctx.themeIds.isEmpty then
      Except.ok (generateFiles cfg rand true [] tokens tokenGroups
        inp.tokenCollections)
    else
      match resolveThemes inp.themes ctx.themeIds with
      | Except.error e => Except.error e
      | Except.ok themesToApply =>
        Except.ok (generateFiles cfg rand false themesToApply tokens
          tokenGroups inp.tokenCollections)

/-! Concrete fixtures used by the claim theorems below. -/

/-- Cyclic fixture for the ancestor-walk claim: two groups that are each
other's parent, neither carrying a known component name. -/
def c7groupA : TokenGroup := ⟨"grp-a", "left", some "grp-b", none⟩

/-- Second group of the cyclic fixture (see `c7groupA`). -/
def c7groupB : TokenGroup := ⟨"grp-b", "right", some "grp-a", none⟩

/-- Run configuration of the C9 counterexample: `exportBaseValues` enabled. -/
def c9cfg : ExporterConfiguration :=
  ⟨FileStructure.singleFile, ThemeExportStyle.nestedThemes, true, false⟩

/-- A theme for the C9 counterexample. -/
def c9theme : Theme := ⟨"t1", "t1v", "Light", []⟩

/-- A probe file for the C9 counterexample. -/
def c9probeFile : OutputFile := ⟨"./", "probe.json", Json.leaf "x"⟩

/-- First token of the C2 counterexample. -/
def c2tokenA : Token := ⟨"tok-a", "a", "color", "1", none, some "col-1", none⟩

/-- Second token of the C2 counterexample. -/
def c2tokenB : Token := ⟨"tok-b", "b", "color", "2", none, some "col-2", none⟩

/-- Two distinct collections whose names normalize to the same file name. -/
def c2collectionFoo : Collection := ⟨"col-1", "Foo"⟩

/-- See `c2collectionFoo`. -/
def c2collectionFoo2 : Collection := ⟨"col-2", "foo"⟩

/-- Configuration of the C2 counterexample: by-collection structure, no
themes requested. -/
def c2cfg : ExporterConfiguration :=
  ⟨FileStructure.separateByCollection, ThemeExportStyle.nestedThemes, true, false⟩

/-- Context of the C2 counterexample. -/
def c2ctx : PulsarContext := ⟨none, []⟩

/-- Input of the C2 counterexample. -/
def c2inp : ExportInput :=
  ⟨[c2tokenA, c2tokenB], [], [c2collectionFoo, c2collectionFoo2], [], []⟩

/-- First retained document of the C2 counterexample. -/
def c2fileA : OutputFile := ⟨"./", "foo.json", Json.obj [("a", Json.leaf "1")]⟩

/-- Second retained document of the C2 counterexample. -/
def c2fileB : OutputFile := ⟨"./", "foo.json", Json.obj [("b", Json.leaf "2")]⟩
/-- The ancestor chain read off by the walk (spec section 4.2 wording): the
groups visited upward from the token's immediate parent, fuel-indexed like the
walk, ending at a rootless group, a dangling reference, or fuel exhaustion. -/
def ancestorChain (groups : List TokenGroup) : Nat → Option String → List TokenGroup
  | _, none => []
  | 0, some _ => []
  | Nat.succ n, some cur =>
    match groups.find? (fun g => g.id == cur) with
    | none => []
    | some g => g :: ancestorChain groups n g.parentGroupId

/-- Whether the ancestor walk starting at `start` completes within `fuel`
hops (the bounded-chain data invariant of spec section 3 instantiated to one
chain). -/
def chainTerminates (groups : List TokenGroup) (fuel : Nat)
    (start : Option String) : Bool :=
  (componentWalk groups fuel start).isSome

/-- A group fixture for the C6 witness: an unnamed wrapper whose parent is a
component group. -/
def c6groupShell : TokenGroup := ⟨"grp-shell", "Shell", some "grp-button", none⟩

/-- The component ancestor of `c6groupShell`. -/
def c6groupButton : TokenGroup := ⟨"grp-button", "Button", none, none⟩
/-- Button group fixture (C4/C5/C10 scenarios). -/
def cGroupButton : TokenGroup := ⟨"grp-btn", "Button", none, none⟩

/-- A token living in the button group of the components collection. -/
def cTokenButton : Token :=
  ⟨"tok-btn", "btn-bg", "color", "#111111", some "grp-btn", some "col-comp", none⟩

/-- A components collection fixture. -/
def cCollectionComponents : Collection := ⟨"col-comp", "Components"⟩

/-- Configuration of the C5 counterexample: by-collection structure, no
themes, `exportBaseValues` disabled. -/
def c5cfg : ExporterConfiguration :=
  ⟨FileStructure.separateByCollection, ThemeExportStyle.nestedThemes, false, false⟩

/-- Context of the C5 counterexample: no requested themes. -/
def c5ctx : PulsarContext := ⟨none, []⟩

/-- Input of the C5 counterexample. -/
def c5inp : ExportInput :=
  ⟨[cTokenButton], [cGroupButton], [cCollectionComponents], [], []⟩

/-- The component document emitted despite `exportBaseValues = false`. -/
def c5file : OutputFile :=
  ⟨"./components", "button.json", Json.obj [("btn-bg", Json.leaf "#111111")]⟩

/-- A single-file configuration with `exportBaseValues` disabled, for the C5
witness. -/
def c5wcfg : ExporterConfiguration :=
  ⟨FileStructure.singleFile, ThemeExportStyle.nestedThemes, false, false⟩

/-- A theme with no overrides (so no token's value changes under it). -/
def c4theme : Theme := ⟨"t1", "t1v", "Theme One", []⟩

/-- Configuration of the C4 counterexample: SeparateFiles by collection with
`exportOnlyThemedTokens` enabled. -/
def c4cfg : ExporterConfiguration :=
  ⟨FileStructure.separateByCollection, ThemeExportStyle.separateFiles, false, true⟩

/-- Context of the C4 counterexample: one requested theme. -/
def c4ctx : PulsarContext := ⟨none, ["t1"]⟩

/-- Input of the C4 counterexample: a components collection whose only token
is untouched by the requested theme. -/
def c4inp : ExportInput :=
  ⟨[cTokenButton], [cGroupButton], [cCollectionComponents], [c4theme], []⟩

/-- The themed component document the code emits even though no token of the
partition changed under the theme. -/
def c4themedFile : OutputFile :=
  ⟨"./brand/theme-one", "button.json",
   Json.obj [("btn-bg", Json.obj [("theme-one", Json.leaf "#111111")])]⟩

/-- The brand summary document of the C4 counterexample run. -/
def c4brandFile : OutputFile :=
  ⟨"./brand", "theme-one.json",
   Json.obj [("btn-bg", Json.obj [("theme-one", Json.leaf "#111111")])]⟩

/-- Second component group fixture for the C10 witness. -/
def cGroupCard : TokenGroup := ⟨"grp-card", "Card", none, none⟩

/-- A token living in the card group of the components collection. -/
def cTokenCard : Token :=
  ⟨"tok-card", "card-bg", "color", "#222222", some "grp-card", some "col-comp", none⟩

/-- A theme overriding only the button token, for the C10 witness. -/
def c10theme : Theme := ⟨"t2", "t2v", "Dark", [("tok-btn", "#999999")]⟩

/-- The themed token set of the C10 witness run. -/
def c10themedTokens : List Token :=
  computeTokensByApplyingThemes [cTokenButton, cTokenCard]
    [cTokenButton, cTokenCard] [c10theme]

/-- The themed button document of the C10 witness. -/
def c10fileButton : OutputFile :=
  ⟨"./brand/dark", "button.json",
   Json.obj [("btn-bg", Json.obj [("dark", Json.leaf "#999999")]),
             ("card-bg", Json.obj [("dark", Json.leaf "#222222")])]⟩

/-- The themed card document of the C10 witness: same content as the button
document. -/
def c10fileCard : OutputFile :=
  ⟨"./brand/dark", "card.json",
   Json.obj [("btn-bg", Json.obj [("dark", Json.leaf "#999999")]),
             ("card-bg", Json.obj [("dark", Json.leaf "#222222")])]⟩

/-- A token owned by the global collection (C1 counterexample). -/
def c1tokenGlobal : Token :=
  ⟨"tok-g", "bg", "color", "#000000", none, some "col-global", none⟩

/-- A collection whose name normalizes to `global`. -/
def c1collectionGlobal : Collection := ⟨"col-global", "Global"⟩

/-- Configuration of the C1 counterexample: NestedThemes by collection with
`exportBaseValues` disabled. -/
def c1cfg : ExporterConfiguration :=
  ⟨FileStructure.separateByCollection, ThemeExportStyle.nestedThemes, false, false⟩

/-- Context of the C1 counterexample: one requested theme. -/
def c1ctx : PulsarContext := ⟨none, ["t1"]⟩

/-- Input of the C1 counterexample: a global collection holding a token. -/
def c1inp : ExportInput :=
  ⟨[c1tokenGlobal], [], [c1collectionGlobal], [c4theme], []⟩
/-! Helper lemmas. -/

/-- Strings with equal character data are equal. -/
theorem string_data_inj {a b : String} (h : a.data = b.data) : a = b :=
  String.ext h

/-- Appending a common ending to two strings is injective. -/
theorem string_append_ending_inj {a b : String} (s : String)
    (h : a ++ s = b ++ s) : a = b := by
  have hd := congrArg String.data h
  simp only [String.data_append] at hd
  exact string_data_inj (List.append_left_injective s.data hd)

/-- Every file surviving the dedupe worker has an identity outside `seen`. -/
theorem uniqueFilesAux_mem_id_not_seen :
    ∀ (seen : List String) (l : List OutputFile) (f : OutputFile),
      f ∈ uniqueFilesAux seen l → fileId f ∉ seen := by
  intro seen l
  induction l generalizing seen with
  | nil => intro f hf; simp [uniqueFilesAux] at hf
  | cons g rest ih =>
    intro f hf
    by_cases hg : seen.contains (fileId g)
    · rw [uniqueFilesAux, if_pos hg] at hf
      exact ih seen f hf
    · rw [uniqueFilesAux, if_neg hg] at hf
      rcases List.mem_cons.mp hf with h | h
      · subst h
        intro hmem
        exact hg (List.elem_eq_true_of_mem hmem)
      · intro hmem
        exact ih (fileId g :: seen) f h (List.mem_cons_of_mem _ hmem)

/-- The dedupe worker never keeps two files with the same identity key. -/
theorem uniqueFilesAux_pairwise (seen : List String) (l : List OutputFile) :
    (uniqueFilesAux seen l).Pairwise (fun f g => fileId f ≠ fileId g) := by
  induction l generalizing seen with
  | nil => simp [uniqueFilesAux]
  | cons g rest ih =>
    by_cases hg : seen.contains (fileId g)
    · rw [uniqueFilesAux, if_pos hg]; exact ih seen
    · rw [uniqueFilesAux, if_neg hg]
      refine List.Pairwise.cons ?_ (ih _)
      intro f hf heq
      have hnot := uniqueFilesAux_mem_id_not_seen _ _ f hf
      exact hnot (heq ▸ List.mem_cons_self _ _)

/-- Identities already seen never reappear in the dedupe worker's output. -/
theorem uniqueFilesAux_filter_of_seen (s : String) :
    ∀ (seen : List String) (l : List OutputFile), s ∈ seen →
      (uniqueFilesAux seen l).filter (fun f => fileId f == s) = [] := by
  intro seen l
  induction l generalizing seen with
  | nil => intro _; simp [uniqueFilesAux]
  | cons g rest ih =>
    intro hs
    by_cases hg : seen.contains (fileId g)
    · rw [uniqueFilesAux, if_pos hg]; exact ih seen hs
    · rw [uniqueFilesAux, if_neg hg]
      have hne : (fileId g == s) = false := by
        refine beq_eq_false_iff_ne.mpr ?_
        intro heq
        exact hg (List.elem_eq_true_of_mem (heq ▸ hs))
      rw [List.filter_cons, hne]
      simp only [Bool.false_eq_true, if_false]
      exact ih (fileId g :: seen) (List.mem_cons_of_mem _ hs)

/-- First-wins characterization of the dedupe worker: for an unseen identity
key, the output retains exactly the first input file carrying it. -/
theorem uniqueFilesAux_filter_take (s : String) :
    ∀ (seen : List String) (l : List OutputFile), s ∉ seen →
      (uniqueFilesAux seen l).filter (fun f => fileId f == s) =
        (l.filter (fun f => fileId f == s)).take 1 := by
  intro seen l
  induction l generalizing seen with
  | nil => intro _; simp [uniqueFilesAux]
  | cons g rest ih =>
    intro hs
    by_cases hgid : fileId g = s
    · have hg : ¬ seen.contains (fileId g) := by
        intro hc
        exact hs (hgid ▸ List.mem_of_elem_eq_true hc)
      rw [uniqueFilesAux, if_neg hg]
      have htrue : (fileId g == s) = true := beq_iff_eq.mpr hgid
      rw [List.filter_cons, List.filter_cons, htrue]
      simp only [if_true]
      rw [uniqueFilesAux_filter_of_seen s (fileId g :: seen) rest
        (hgid ▸ List.mem_cons_self _ _)]
      simp
    · have hfalse : (fileId g == s) = false := beq_eq_false_iff_ne.mpr hgid
      by_cases hg : seen.contains (fileId g)
      · rw [uniqueFilesAux, if_pos hg]
        rw [List.filter_cons, hfalse]
        simp only [Bool.false_eq_true, if_false]
        exact ih seen hs
      · rw [uniqueFilesAux, if_neg hg]
        rw [List.filter_cons, List.filter_cons, hfalse]
        simp only [Bool.false_eq_true, if_false]
        exact ih (fileId g :: seen)
          (by
            intro hmem
            rcases List.mem_cons.mp hmem with h | h
            · exact hgid h.symm
            · exact hs h)

/-- First-wins characterization of the dedupe pass. -/
theorem uniqueFiles_filter_take (l : List OutputFile) (s : String) :
    (uniqueFiles l).filter (fun f => fileId f == s) =
      (l.filter (fun f => fileId f == s)).take 1 :=
  uniqueFilesAux_filter_take s [] l (List.not_mem_nil s)

/-- The dedupe pass leaves no two files sharing a destination identity
(directory, file name): equal pairs would give equal identity keys. -/
theorem uniqueFiles_pairwise_identity (l : List OutputFile) :
    (uniqueFiles l).Pairwise (fun f g => ¬(f.path = g.path ∧ f.name = g.name)) := by
  refine (uniqueFilesAux_pairwise [] l).imp ?_
  intro f g hid hpair
  exact hid (by unfold fileId; rw [hpair.1, hpair.2])

/-- Theme resolution errors exactly when some requested id matches no loaded
theme (part_000 lines 60-66). -/
theorem resolveThemes_error_iff (themes : List Theme) (ids : List String) :
    (∃ e, resolveThemes themes ids = Except.error e) ↔
      ∃ tid ∈ ids, themes.find? (fun t => matchesThemeId t tid) = none := by
  induction ids with
  | nil => simp [resolveThemes]
  | cons tid rest ih =>
    rw [resolveThemes]
    cases hfind : themes.find? (fun t => matchesThemeId t tid) with
    | none =>
      constructor
      · intro _
        exact ⟨tid, List.mem_cons_self _ _, hfind⟩
      · intro _
        exact ⟨_, rfl⟩
    | some th =>
      cases hrec : resolveThemes themes rest with
      | error e =>
        constructor
        · intro _
          obtain ⟨tid2, htid2, hfind2⟩ := ih.mp ⟨e, hrec⟩
          exact ⟨tid2, List.mem_cons_of_mem _ htid2, hfind2⟩
        · intro _
          exact ⟨e, rfl⟩
      | ok l =>
        constructor
        · rintro ⟨e, he⟩
          exact absurd he (by simp [Except.map])
        · rintro ⟨tid2, htid2, hfind2⟩
          rcases List.mem_cons.mp htid2 with h | h
          · subst h
            rw [hfind] at hfind2
            cases hfind2
          · obtain ⟨e, he⟩ := ih.mpr ⟨tid2, h, hfind2⟩
            rw [hrec] at he
            cases he

/-- Brand filtering errors exactly when a brand was requested and matches no
loaded brand (part_000 lines 45-55). -/
theorem brandFilterStep_error_iff (ctx : PulsarContext) (inp : ExportInput) :
    (∃ e, brandFilterStep ctx inp = Except.error e) ↔
      ∃ bid, ctx.brandId = some bid ∧
        inp.brands.find? (fun b => matchesBrandId b bid) = none := by
  unfold brandFilterStep
  cases hb : ctx.brandId with
  | none => simp
  | some bid =>
    dsimp only
    cases hbf : inp.brands.find? (fun b => matchesBrandId b bid) with
    | none =>
      constructor
      · intro _
        exact ⟨bid, rfl, hbf⟩
      · intro _
        exact ⟨_, rfl⟩
    | some brand =>
      constructor
      · rintro ⟨e, he⟩
        exact absurd he (by simp)
      · rintro ⟨bid2, hbid2, hfind2⟩
        cases hbid2
        rw [hbf] at hfind2
        cases hfind2

/-- C3: the composition aborts with a fatal error (returning no document list
at all) exactly when the requested brand identifier matches no loaded brand or
some requested theme identifier matches no loaded theme; conversely, when all
requested identifiers resolve, no such error is raised and a document list is
returned. -/
theorem c3_unresolved_identifier_aborts (cfg : ExporterConfiguration)
    (ctx : PulsarContext) (inp : ExportInput) (rand : String) :
    (∃ e, pulsarExport cfg ctx inp rand = Except.error e) ↔
      ((∃ bid, ctx.brandId = some bid ∧
          inp.brands.find? (fun b => matchesBrandId b bid) = none) ∨
       (∃ tid ∈ ctx.themeIds,
          inp.themes.find? (fun t => matchesThemeId t tid) = none)) := by
  unfold pulsarExport
  cases hbs : brandFilterStep ctx inp with
  | error e0 =>
    constructor
    · intro _
      exact Or.inl ((brandFilterStep_error_iff ctx inp).mp ⟨e0, hbs⟩)
    · intro _
      exact ⟨e0, rfl⟩
  | ok pair =>
    obtain ⟨tokens, tokenGroups⟩ := pair
    have hbrand : ¬ ∃ bid, ctx.brandId = some bid ∧
        inp.brands.find? (fun b => matchesBrandId b bid) = none := by
      intro hex
      obtain ⟨e, he⟩ := (brandFilterStep_error_iff ctx inp).mpr hex
      rw [hbs] at he
      cases he
    dsimp only
    by_cases hemp : ctx.themeIds.isEmpty
    · rw [if_pos hemp]
      have hnil := List.isEmpty_iff.mp hemp
      constructor
      · rintro ⟨e, he⟩
        exact absurd he (by simp)
      · rintro (hb | ⟨tid, htid, _⟩)
        · exact absurd hb hbrand
        · rw [hnil] at htid
          cases htid
    · rw [if_neg hemp]
      cases hres : resolveThemes inp.themes ctx.themeIds with
      | error e1 =>
        constructor
        · intro _
          exact Or.inr ((resolveThemes_error_iff _ _).mp ⟨e1, hres⟩)
        · intro _
          exact ⟨e1, rfl⟩
      | ok l =>
        constructor
        · rintro ⟨e, he⟩
          exact absurd he (by simp)
        · rintro (hb | htid)
          · exact absurd hb hbrand
          · obtain ⟨e, he⟩ := (resolveThemes_error_iff _ _).mpr htid
            rw [hres] at he
            cases he

/-- C7: the ancestor walk of the component-group resolution carries no
defensive hop bound: on a parent chain violating the acyclic invariant (two
groups that are each other's parent, neither named after a component), the
walk is still running after every number of steps, i.e. the source's `while`
loop never reaches a result. -/
theorem c7_walk_unbounded_on_cycle :
    (c7groupA.parentGroupId = some c7groupB.id ∧
     c7groupB.parentGroupId = some c7groupA.id) ∧
    ∀ n : Nat,
      componentWalk [c7groupA, c7groupB] n (some c7groupA.id) = none ∧
      componentWalk [c7groupA, c7groupB] n (some c7groupB.id) = none := by
  refine ⟨⟨rfl, rfl⟩, ?_⟩
  intro n
  induction n with
  | zero => exact ⟨rfl, rfl⟩
  | succ n ih =>
    refine ⟨?_, ?_⟩
    · have hstep : componentWalk [c7groupA, c7groupB] (Nat.succ n) (some "grp-a") =
          componentWalk [c7groupA, c7groupB] n (some "grp-b") := rfl
      show componentWalk [c7groupA, c7groupB] (Nat.succ n) (some "grp-a") = none
      rw [hstep]
      exact ih.2
    · have hstep : componentWalk [c7groupA, c7groupB] (Nat.succ n) (some "grp-b") =
          componentWalk [c7groupA, c7groupB] n (some "grp-a") := rfl
      show componentWalk [c7groupA, c7groupB] (Nat.succ n) (some "grp-b") = none
      rw [hstep]
      exact ih.1

/-- C8: composition is deterministic.  The only source of randomness of the
whole pipeline (`Math.random()`, feeding the dead `callId` local of the
component-group generator) is threaded through as the `rand` argument, and the
produced document list is independent of it; all container iteration is over
the input lists (and an insertion-ordered map), so the result is a pure
function of inputs and configuration: two runs agree in content, count, and
order. -/
theorem c8_deterministic_composition (cfg : ExporterConfiguration)
    (ctx : PulsarContext) (inp : ExportInput) (r1 r2 : String) :
    pulsarExport cfg ctx inp r1 = pulsarExport cfg ctx inp r2 := rfl

/-- C9 counterexample: with `exportBaseValues = true` supplied for the whole
run, the themed generation call of the NestedThemes sequence does not observe
the run's configuration value: a builder that emits a document exactly when it
observes `exportBaseValues = true` emits nothing, because the sequence
(embedding the source's toggle of the shared configuration flag) hands the
builder a configuration with the flag suppressed. -/
theorem c9_counterexample :
    (nestedThemeFilesState
      (fun st _ => if st.exportBaseValues then some c9probeFile else none)
      c9cfg [c9theme]).1 = [none] ∧
    c9cfg.exportBaseValues = true :=
  ⟨rfl, rfl⟩

/-- C9 (amended): the mid-composition suppression of `exportBaseValues` is
implemented by toggling the shared configuration and restoring it afterwards,
not by a per-call parameter; observably, every themed generation call of a
NestedThemes sequence receives the configuration with `exportBaseValues`
forced to `false` (not the run's value), and after the sequence the shared
configuration is restored to exactly the configuration supplied for the run. -/
theorem c9_amended_suppression_and_restore
    (build : ExporterConfiguration → Theme → Option OutputFile)
    (cfg : ExporterConfiguration) (themes : List Theme) :
    (nestedThemeFilesState build cfg themes).1 =
      themes.map (fun th => build { cfg with exportBaseValues := false } th) ∧
    (nestedThemeFilesState build cfg themes).2 = cfg := by
  have key : ∀ (ts : List Theme) (acc : List (Option OutputFile))
      (st : ExporterConfiguration),
      nestedThemeFilesGo build ts acc st =
        (acc ++ ts.map (fun th => build { st with exportBaseValues := false } th),
         st) := by
    intro ts
    induction ts with
    | nil =>
      intro acc st
      simp [nestedThemeFilesGo]
    | cons th rest ih =>
      intro acc st
      have hstep : nestedThemeFilesGo build (th :: rest) acc st =
          nestedThemeFilesGo build rest
            (acc ++ [build { st with exportBaseValues := false } th]) st := rfl
      rw [hstep, ih]
      simp
  unfold nestedThemeFilesState
  rw [key]
  exact ⟨by simp, rfl⟩

/-- C2 counterexample: in the no-theme by-collection configuration the final
result retains two documents with the same destination identity (directory
`./`, file name `foo.json`) but different content — the dedupe scan does not
run in this configuration, refuting the claimed invariant for every
configuration. -/
theorem c2_counterexample :
    pulsarExport c2cfg c2ctx c2inp "" = Except.ok [c2fileA, c2fileB] ∧
    c2fileA.path = c2fileB.path ∧ c2fileA.name = c2fileB.name ∧
    c2fileA.content = Json.obj [("a", Json.leaf "1")] ∧
    c2fileB.content = Json.obj [("b", Json.leaf "2")] :=
  ⟨rfl, rfl, rfl, rfl, rfl⟩

/-- C2 (amended): the first-per-identity dedupe invariant holds of the list
returned by the SeparateFiles by-collection branch (the one configuration
whose source runs the dedupe pass): no two retained documents share a
destination identity, and in general the dedupe pass retains, for every
identity key, exactly the first generated document carrying it (later
colliding documents are dropped). -/
theorem c2_amended_dedupe_invariant (cfg : ExporterConfiguration)
    (rand : String) (themesToApply : List Theme) (tokens : List Token)
    (tokenGroups : List TokenGroup) (tokenCollections : List Collection) :
    (separateFilesByCollection cfg rand themesToApply tokens tokenGroups
        tokenCollections).Pairwise
      (fun f g => ¬(f.path = g.path ∧ f.name = g.name)) ∧
    ∀ (files : List OutputFile) (s : String),
      (uniqueFiles files).filter (fun f => fileId f == s) =
        (files.filter (fun f => fileId f == s)).take 1 := by
  constructor
  · exact uniqueFiles_pairwise_identity _
  · exact fun files s => uniqueFiles_filter_take files s

/-- A completed ancestor walk returns exactly the first group of the ancestor
chain whose normalized name is a known component name (mapped to its id), or
`none` when no visited ancestor matches. -/
theorem componentWalk_spec (groups : List TokenGroup) :
    ∀ (n : Nat) (cur : Option String) (r : Option String),
      componentWalk groups n cur = some r →
      r = ((ancestorChain groups n cur).find? isKnownComponentGroup).map
            TokenGroup.id := by
  intro n
  induction n with
  | zero =>
    intro cur r h
    cases cur with
    | none =>
      simp only [componentWalk, Option.some.injEq] at h
      subst h
      simp [ancestorChain]
    | some c =>
      simp only [componentWalk] at h
      exact Option.noConfusion h
  | succ n ih =>
    intro cur r h
    cases cur with
    | none =>
      simp only [componentWalk, Option.some.injEq] at h
      subst h
      simp [ancestorChain]
    | some c =>
      rw [componentWalk] at h
      rw [ancestorChain]
      cases hfind : groups.find? (fun g => g.id == c) with
      | none =>
        rw [hfind] at h
        simp only [Option.some.injEq] at h
        subst h
        simp
      | some g =>
        rw [hfind] at h
        dsimp only at h
        dsimp only
        by_cases hk : isKnownComponentGroup g
        · rw [if_pos hk] at h
          simp only [Option.some.injEq] at h
          subst h
          rw [List.find?_cons_of_pos _ hk]
          have hp : (g.id == c) = true := by simpa using List.find?_some hfind
          have hid : g.id = c := eq_of_beq hp
          simp [hid]
        · rw [if_neg hk] at h
          rw [List.find?_cons_of_neg _ hk]
          exact ih g.parentGroupId r h

/-- C6: for every token with an immediate parent group whose ancestor chain
satisfies the bounded-chain invariant, the component-group resolution returns
the id of the first ancestor (the immediate parent included) whose normalized
name is a known component name, and falls back to the immediate parent id
when no visited ancestor matches — never null and never a group skipped to
the root. -/
theorem c6_component_group_resolution (groups : List TokenGroup)
    (parentId : String)
    (h : chainTerminates groups (groups.length + 1) (some parentId) = true) :
    findComponentGroup groups parentId =
      (((ancestorChain groups (groups.length + 1) (some parentId)).find?
          isKnownComponentGroup).map TokenGroup.id).getD parentId := by
  unfold findComponentGroup
  unfold chainTerminates at h
  cases hw : componentWalk groups (groups.length + 1) (some parentId) with
  | none =>
    rw [hw] at h
    simp at h
  | some r =>
    have hr := componentWalk_spec groups _ _ r hw
    rw [← hr]
    cases r with
    | none => simp
    | some g => simp

/-- C6 witness: on a two-group chain whose immediate parent is not a known
component name but whose grandparent is the component group `button`, the
resolution returns the grandparent's id. -/
theorem c6_witness :
    chainTerminates [c6groupShell, c6groupButton] 3 (some "grp-shell") = true ∧
    findComponentGroup [c6groupShell, c6groupButton] "grp-shell" =
      "grp-button" := by
  refine ⟨by decide, ?_⟩
  have h := c6_component_group_resolution [c6groupShell, c6groupButton]
    "grp-shell" (by decide)
  rw [h]
  decide

/-- C5 counterexample: with `themeExportStyle` None (no themes requested),
ByCollection structure and `exportBaseValues = false`, the composer still
emits the per-component-group document — the claimed gate on
`exportBaseValues` does not govern the by-collection no-theme branch. -/
theorem c5_counterexample :
    c5cfg.exportBaseValues = false ∧
    pulsarExport c5cfg c5ctx c5inp "" = Except.ok [c5file] :=
  ⟨rfl, rfl⟩

/-- C5 (amended): in the no-theme ByCollection branch the per-collection and
per-component-group documents are emitted regardless of `exportBaseValues`
(the branch's output is independent of the flag), while the `exportBaseValues`
gate governs only the SingleFile and ByTokenType no-theme branches (whose
output is empty when the flag is off). -/
theorem c5_amended_base_gate (cfg : ExporterConfiguration) (ctx : PulsarContext)
    (inp : ExportInput) (rand : String) (b1 b2 : Bool) :
    (cfg.fileStructure = FileStructure.separateByCollection → ctx.themeIds = [] →
      pulsarExport { cfg with exportBaseValues := b1 } ctx inp rand =
        pulsarExport { cfg with exportBaseValues := b2 } ctx inp rand) ∧
    (cfg.exportBaseValues = false → ctx.themeIds = [] → ctx.brandId = none →
      cfg.fileStructure ≠ FileStructure.separateByCollection →
      pulsarExport cfg ctx inp rand = Except.ok []) := by
  constructor
  · intro hfs hti
    unfold pulsarExport
    have hemp : ctx.themeIds.isEmpty = true := by rw [hti]; rfl
    cases hbs : brandFilterStep ctx inp with
    | error e => rfl
    | ok pair =>
      obtain ⟨tokens, tokenGroups⟩ := pair
      dsimp only
      rw [if_pos hemp, if_pos hemp]
      unfold generateFiles
      rw [if_pos rfl, if_pos rfl]
      unfold noThemeTail
      rw [if_pos ⟨hfs, rfl⟩, if_pos ⟨hfs, rfl⟩]
      rfl
  · intro hbv hti hbid hfs
    unfold pulsarExport
    have hbs : brandFilterStep ctx inp = Except.ok (inp.tokens, inp.tokenGroups) := by
      unfold brandFilterStep
      rw [hbid]
    rw [hbs]
    dsimp only
    have hemp : ctx.themeIds.isEmpty = true := by rw [hti]; rfl
    rw [if_pos hemp]
    unfold generateFiles
    rw [if_pos rfl]
    unfold noThemeTail
    rw [if_neg (by intro hand; exact hfs hand.1)]
    by_cases hsf : cfg.fileStructure = FileStructure.singleFile
    · rw [if_pos hsf, hbv]
      rfl
    · rw [if_neg hsf, hbv]
      rfl

/-- C5 witness: the amended claim instantiated — the by-collection no-theme
run is unchanged by toggling `exportBaseValues`, and a single-file no-theme
run with the flag off produces the empty document list. -/
theorem c5_witness :
    pulsarExport { c5cfg with exportBaseValues := true } c5ctx c5inp "" =
      pulsarExport { c5cfg with exportBaseValues := false } c5ctx c5inp "" ∧
    pulsarExport c5wcfg c5ctx c5inp "" = Except.ok [] := by
  constructor
  · exact (c5_amended_base_gate c5cfg c5ctx c5inp "" true false).1 rfl rfl
  · exact (c5_amended_base_gate c5wcfg c5ctx c5inp "" true false).2 rfl rfl rfl
      (by intro h; exact absurd h (by decide))

/-- The tokens-to-tree capability returns a tree (not the skip sentinel) on
every non-empty token list. -/
theorem processTokensToObject_ne_nil (tokens : List Token)
    (groups : List TokenGroup) (theme : Option Theme)
    (cols : List Collection) (allTokens : List Token) (h : tokens ≠ []) :
    ∃ obj, processTokensToObject tokens groups theme cols allTokens = some obj := by
  unfold processTokensToObject
  rw [if_neg (by simpa using h)]
  exact ⟨_, rfl⟩

/-- C4 counterexample: `exportOnlyThemedTokens` is set and the components
collection's token subset has zero tokens changed by the theme (the overlay
diff is empty), yet the themed component document for the partition is
produced under the theme's brand directory. -/
theorem c4_counterexample :
    c4cfg.exportOnlyThemedTokens = true ∧
    filterThemedTokens
      (c4inp.tokens.filter
        (fun t => t.collectionId == some cCollectionComponents.persistentId))
      c4theme = [] ∧
    pulsarExport c4cfg c4ctx c4inp "" = Except.ok [c4themedFile, c4brandFile] :=
  ⟨rfl, rfl, rfl⟩

/-- C4 (amended): the skipping rule holds where the component-group generator
is invoked with a theme path — with `exportOnlyThemedTokens` set and an empty
overlay diff for the collection it returns no files — but the themed component
documents of the SeparateFiles by-collection branch are built without the diff
check: whenever the collection's themed token subset is non-empty they are
emitted, one per base component file, regardless of the diff. -/
theorem c4_amended_skip_rule (cfg : ExporterConfiguration) (rand : String)
    (collection : Collection) (tokens : List Token)
    (groups : List TokenGroup) (cols : List Collection) (themePath : String)
    (theme : Theme) (themedTokens : List Token) (themeName : String) :
    (themePath ≠ "" → cfg.exportOnlyThemedTokens = true →
      filterThemedTokens
        (tokens.filter (fun t => t.collectionId == some collection.persistentId))
        theme = [] →
      componentGroupStyleOutputFiles cfg rand collection tokens groups
        themePath (some theme) cols = []) ∧
    (themedTokens.filter (fun t => t.collectionId == some collection.persistentId) ≠ [] →
      (componentThemeFilesFor cfg rand collection tokens groups cols theme
          themedTokens themeName).length =
        (componentGroupStyleOutputFiles cfg rand collection tokens groups ""
          none cols).length) := by
  constructor
  · intro hpath hflag hdiff
    unfold componentGroupStyleOutputFiles
    dsimp only
    have hcond : (themePath != "" && cfg.exportOnlyThemedTokens) = true := by
      rw [hflag]
      simp [hpath]
    rw [if_pos hcond, hdiff]
    rfl
  · intro hne
    obtain ⟨obj, hobj⟩ := processTokensToObject_ne_nil _ groups (some theme)
      cols tokens hne
    unfold componentThemeFilesFor
    simp only [hobj]
    rw [List.filterMap_map]
    simp [Function.comp_def]

/-- C4 witness: the amended claim instantiated — the themed component-group
generator call with a theme path returns no files when the diff is empty,
while the SeparateFiles themed component documents match the base component
files one-to-one. -/
theorem c4_witness :
    componentGroupStyleOutputFiles c4cfg "" cCollectionComponents c4inp.tokens
      c4inp.tokenGroups "light" (some c4theme) c4inp.tokenCollections = [] ∧
    (componentThemeFilesFor c4cfg "" cCollectionComponents [cTokenButton]
        [cGroupButton] [cCollectionComponents] c4theme [cTokenButton]
        "theme-one").length =
      (componentGroupStyleOutputFiles c4cfg "" cCollectionComponents
        [cTokenButton] [cGroupButton] "" none [cCollectionComponents]).length := by
  constructor
  · exact (c4_amended_skip_rule c4cfg "" cCollectionComponents c4inp.tokens
      c4inp.tokenGroups c4inp.tokenCollections "light" c4theme [] "").1
      (by decide) rfl rfl
  · exact (c4_amended_skip_rule c4cfg "" cCollectionComponents [cTokenButton]
      [cGroupButton] [cCollectionComponents] "light" c4theme [cTokenButton]
      "theme-one").2 (by decide)

/-- C10: in the SeparateFiles by-collection branch, every themed component
document produced for a components collection and a theme carries the same
content — the tree built from the whole collection's themed token subset
(filtered only by collection id, never by the component group naming the
file) — so any two such documents have identical content. -/
theorem c10_themed_component_content (cfg : ExporterConfiguration)
    (rand : String) (collection : Collection) (tokens : List Token)
    (groups : List TokenGroup) (cols : List Collection) (theme : Theme)
    (themedTokens : List Token) (themeName : String) (f1 f2 : OutputFile)
    (h1 : f1 ∈ componentThemeFilesFor cfg rand collection tokens groups cols
      theme themedTokens themeName)
    (h2 : f2 ∈ componentThemeFilesFor cfg rand collection tokens groups cols
      theme themedTokens themeName) :
    f1.content = f2.content ∧
    some f1.content = processTokensToObject
      (themedTokens.filter
        (fun t => t.collectionId == some collection.persistentId))
      groups (some theme) cols tokens := by
  have key : ∀ f, f ∈ componentThemeFilesFor cfg rand collection tokens groups
      cols theme themedTokens themeName →
      some f.content = processTokensToObject
        (themedTokens.filter
          (fun t => t.collectionId == some collection.persistentId))
        groups (some theme) cols tokens := by
    intro f hf
    unfold componentThemeFilesFor at hf
    rw [List.mem_filterMap] at hf
    obtain ⟨o, ho, hoo⟩ := hf
    rw [List.mem_map] at ho
    obtain ⟨b, _, hbo⟩ := ho
    dsimp only at hbo
    cases hobj : processTokensToObject
        (themedTokens.filter
          (fun t => t.collectionId == some collection.persistentId))
        groups (some theme) cols tokens with
    | none =>
      rw [hobj] at hbo
      rw [← hbo] at hoo
      exact Option.noConfusion hoo
    | some obj =>
      rw [hobj] at hbo
      rw [← hbo] at hoo
      simp only [id] at hoo
      rw [← Option.some.injEq .. |>.mpr rfl] at hoo
      cases hoo
      rfl
  have k1 := key f1 h1
  have k2 := key f2 h2
  refine ⟨?_, k1⟩
  have := k1.trans k2.symm
  exact Option.some.inj this

/-- C10 witness: a components collection with two component groups under one
theme yields themed documents (button and card) with identical content, equal
to the whole collection's themed tree. -/
theorem c10_witness :
    c10fileButton.content = c10fileCard.content ∧
    some c10fileButton.content = processTokensToObject
      (c10themedTokens.filter
        (fun t => t.collectionId == some cCollectionComponents.persistentId))
      [cGroupButton, cGroupCard] (some c10theme) [cCollectionComponents]
      [cTokenButton, cTokenCard] := by
  have hlist : componentThemeFilesFor c4cfg "" cCollectionComponents
      [cTokenButton, cTokenCard] [cGroupButton, cGroupCard]
      [cCollectionComponents] c10theme c10themedTokens "dark" =
      [c10fileButton, c10fileCard] := rfl
  have h1 : c10fileButton ∈ componentThemeFilesFor c4cfg "" cCollectionComponents
      [cTokenButton, cTokenCard] [cGroupButton, cGroupCard]
      [cCollectionComponents] c10theme c10themedTokens "dark" := by
    rw [hlist]
    exact List.mem_cons_self _ _
  have h2 : c10fileCard ∈ componentThemeFilesFor c4cfg "" cCollectionComponents
      [cTokenButton, cTokenCard] [cGroupButton, cGroupCard]
      [cCollectionComponents] c10theme c10themedTokens "dark" := by
    rw [hlist]
    exact List.mem_cons_of_mem _ (List.mem_cons_self _ _)
  exact c10_themed_component_content c4cfg "" cCollectionComponents
    [cTokenButton, cTokenCard] [cGroupButton, cGroupCard]
    [cCollectionComponents] c10theme c10themedTokens "dark"
    c10fileButton c10fileCard h1 h2

/-- Prepending a common string to two strings is injective. -/
theorem string_prepend_inj {a b : String} (p : String) (h : p ++ a = p ++ b) :
    a = b := by
  have hd := congrArg String.data h
  simp only [String.data_append] at hd
  exact string_data_inj (List.append_right_injective p.data hd)

/-- A base by-collection document generated with no theme lands at the root
with the collection's normalized file name. -/
theorem combinedCollection_base_shape (cfg : ExporterConfiguration)
    (c : Collection) (tokens : List Token) (groups : List TokenGroup)
    (cols : List Collection) (f : OutputFile)
    (h : combinedCollectionStyleOutputFile cfg c tokens groups "" none cols =
      some f) :
    f.path = "./" ∧ f.name = kebabName c.name ++ ".json" := by
  unfold combinedCollectionStyleOutputFile at h
  dsimp only at h
  cases hobj : processTokensToObject
      (tokens.filter (fun t => t.collectionId == some c.persistentId))
      groups none cols tokens with
  | none =>
    rw [hobj] at h
    exact Option.noConfusion h
  | some obj =>
    rw [hobj] at h
    dsimp only at h
    cases h
    exact ⟨rfl, rfl⟩

/-- A collection owning at least one token yields a base by-collection
document (the empty-tree skip cannot fire). -/
theorem combinedCollection_base_some (cfg : ExporterConfiguration)
    (c : Collection) (tokens : List Token) (groups : List TokenGroup)
    (cols : List Collection)
    (h : tokens.any (fun t => t.collectionId == some c.persistentId) = true) :
    ∃ f, combinedCollectionStyleOutputFile cfg c tokens groups "" none cols =
      some f := by
  unfold combinedCollectionStyleOutputFile
  dsimp only
  have hne : tokens.filter (fun t => t.collectionId == some c.persistentId) ≠ [] := by
    obtain ⟨t, ht, hp⟩ := List.any_eq_true.mp h
    exact List.ne_nil_of_mem (List.mem_filter.mpr ⟨ht, hp⟩)
  obtain ⟨obj, hobj⟩ := processTokensToObject_ne_nil _ groups none cols tokens hne
  rw [hobj]
  exact ⟨_, rfl⟩

/-- Base by-collection documents of collections whose normalized names differ
from the target's never carry the target's root identity key. -/
theorem ga_filter_byId_nil (cfg : ExporterConfiguration) (tokens : List Token)
    (groups : List TokenGroup) (cols : List Collection) (c : Collection) :
    ∀ ga : List Collection,
      (∀ c' ∈ ga, kebabName c'.name ≠ kebabName c.name) →
      ((ga.filterMap (fun c' =>
          combinedCollectionStyleOutputFile cfg c' tokens groups "" none
            cols)).filter
        (fun f => fileId f == "./" ++ "/" ++ (kebabName c.name ++ ".json"))) =
        [] := by
  intro ga
  induction ga with
  | nil => intro _; rfl
  | cons g rest ih =>
    intro hne
    cases hbld : combinedCollectionStyleOutputFile cfg g tokens groups "" none
        cols with
    | none =>
      simp only [List.filterMap_cons, hbld]
      exact ih (fun c' hc' => hne c' (List.mem_cons_of_mem _ hc'))
    | some f =>
      simp only [List.filterMap_cons, hbld]
      rw [List.filter_cons]
      have hshape := combinedCollection_base_shape cfg g tokens groups cols f hbld
      have hfid : (fileId f == "./" ++ "/" ++ (kebabName c.name ++ ".json")) =
          false := by
        refine beq_eq_false_iff_ne.mpr ?_
        intro heq
        unfold fileId at heq
        rw [hshape.1, hshape.2] at heq
        have hnames : kebabName g.name ++ ".json" =
            kebabName c.name ++ ".json" := string_prepend_inj ("./" ++ "/") heq
        exact hne g (List.mem_cons_self _ _)
          (string_append_ending_inj ".json" hnames)
      rw [hfid]
      simp only [Bool.false_eq_true, if_false]
      exact ih (fun c' hc' => hne c' (List.mem_cons_of_mem _ hc'))

/-- Among the base documents of a kebab-distinct collection list that all own
tokens, exactly one carries the target collection's root identity key. -/
theorem ga_filter_byId (cfg : ExporterConfiguration) (tokens : List Token)
    (groups : List TokenGroup) (cols : List Collection) (c : Collection) :
    ∀ ga : List Collection,
      ga.Pairwise (fun a b => kebabName a.name ≠ kebabName b.name) →
      (∀ c' ∈ ga,
        tokens.any (fun t => t.collectionId == some c'.persistentId) = true) →
      c ∈ ga →
      ∃ doc, doc.path = "./" ∧ doc.name = kebabName c.name ++ ".json" ∧
        ((ga.filterMap (fun c' =>
            combinedCollectionStyleOutputFile cfg c' tokens groups "" none
              cols)).filter
          (fun f => fileId f == "./" ++ "/" ++ (kebabName c.name ++ ".json"))) =
          [doc] := by
  intro ga
  induction ga with
  | nil =>
    intro _ _ hc
    cases hc
  | cons g rest ih =>
    intro hpw htok hc
    rcases List.mem_cons.mp hc with hcg | hcr
    · subst hcg
      obtain ⟨f, hbld⟩ := combinedCollection_base_some cfg c tokens groups cols
        (htok c (List.mem_cons_self _ _))
      have hshape := combinedCollection_base_shape cfg c tokens groups cols f hbld
      simp only [List.filterMap_cons, hbld]
      rw [List.filter_cons]
      have hfid : (fileId f == "./" ++ "/" ++ (kebabName c.name ++ ".json")) =
          true := by
        refine beq_iff_eq.mpr ?_
        unfold fileId
        rw [hshape.1, hshape.2]
      rw [hfid]
      simp only [if_true]
      rw [ga_filter_byId_nil cfg tokens groups cols c rest
        (fun c' hc' => ((List.pairwise_cons.mp hpw).1 c' hc').symm)]
      exact ⟨f, hshape.1, hshape.2, rfl⟩
    · have hgne : kebabName g.name ≠ kebabName c.name :=
        (List.pairwise_cons.mp hpw).1 c hcr
      cases hbld : combinedCollectionStyleOutputFile cfg g tokens groups ""
          none cols with
      | none =>
        simp only [List.filterMap_cons, hbld]
        exact ih (List.pairwise_cons.mp hpw).2
          (fun c' h => htok c' (List.mem_cons_of_mem _ h)) hcr
      | some f =>
        simp only [List.filterMap_cons, hbld]
        rw [List.filter_cons]
        have hshape := combinedCollection_base_shape cfg g tokens groups cols f
          hbld
        have hfid : (fileId f == "./" ++ "/" ++ (kebabName c.name ++ ".json")) =
            false := by
          refine beq_eq_false_iff_ne.mpr ?_
          intro heq
          unfold fileId at heq
          rw [hshape.1, hshape.2] at heq
          have hnames : kebabName g.name ++ ".json" =
              kebabName c.name ++ ".json" :=
            string_prepend_inj ("./" ++ "/") heq
          exact hgne (string_append_ending_inj ".json" hnames)
        rw [hfid]
        simp only [Bool.false_eq_true, if_false]
        exact ih (List.pairwise_cons.mp hpw).2
          (fun c' h => htok c' (List.mem_cons_of_mem _ h)) hcr

/-- The SeparateFiles by-collection result is the dedupe of the global/alias
base documents followed by everything else. -/
theorem separateFilesByCollection_split (cfg : ExporterConfiguration)
    (rand : String) (themesToApply : List Theme) (tokens : List Token)
    (tokenGroups : List TokenGroup) (tokenCollections : List Collection) :
    ∃ rest, separateFilesByCollection cfg rand themesToApply tokens tokenGroups
        tokenCollections =
      uniqueFiles (((globalAliasCollectionsOf tokenCollections tokens).filterMap
        (fun c => combinedCollectionStyleOutputFile cfg c tokens tokenGroups ""
          none tokenCollections)) ++ rest) := by
  unfold separateFilesByCollection
  simp only [List.filterMap_append, List.filterMap_map, Function.comp_def,
    id_eq, List.append_assoc]
  exact ⟨_, rfl⟩

/-- A filter by root destination identity (directory and file name) refines a
filter by the concatenated identity key with the same name. -/
theorem filter_byPair_of_byId (l : List OutputFile) (n : String)
    (doc : OutputFile)
    (hdoc : l.filter (fun f => fileId f == "./" ++ "/" ++ n) = [doc])
    (hpath : doc.path = "./") (hname : doc.name = n) :
    l.filter (fun f => f.path == "./" && f.name == n) = [doc] := by
  have himp : ∀ f : OutputFile, (f.path == "./" && f.name == n) = true →
      (fileId f == "./" ++ "/" ++ n) = true := by
    intro f hf
    rw [Bool.and_eq_true] at hf
    refine beq_iff_eq.mpr ?_
    unfold fileId
    rw [eq_of_beq hf.1, eq_of_beq hf.2]
  have hq : l.filter (fun f => f.path == "./" && f.name == n) =
      (l.filter (fun f => fileId f == "./" ++ "/" ++ n)).filter
        (fun f => f.path == "./" && f.name == n) := by
    rw [List.filter_filter]
    refine (List.filter_congr ?_)
    intro f _
    cases hb : (f.path == "./" && f.name == n) with
    | false =>
      exact (Bool.false_and _).symm
    | true =>
      rw [Bool.true_and]
      exact (himp f hb).symm
  rw [hq, hdoc, List.filter_cons]
  have : (doc.path == "./" && doc.name == n) = true := by
    rw [Bool.and_eq_true]
    exact ⟨beq_iff_eq.mpr hpath, beq_iff_eq.mpr hname⟩
  rw [this]
  rfl

/-- A collection classified as a components collection is never classified as
global/alias. -/
theorem components_not_global_alias (name : String)
    (h : isComponentsName name = true) : isGlobalAliasName name = false := by
  unfold isComponentsName at h
  unfold isGlobalAliasName
  rw [Bool.or_eq_true] at h
  rcases h with h1 | h1
  · rw [eq_of_beq h1]
    rfl
  · rw [eq_of_beq h1]
    rfl

/-- C1 counterexample: in ByCollection structure under the NestedThemes
export style with `exportBaseValues = false`, a run whose collections include
a global collection owning a token emits zero documents for it (indeed zero
documents at all), refuting "exactly one document ... under every theme
export style". -/
theorem c1_counterexample :
    isGlobalAliasName c1collectionGlobal.name = true ∧
    c1inp.tokens.any
      (fun t => t.collectionId == some c1collectionGlobal.persistentId) = true ∧
    pulsarExport c1cfg c1ctx c1inp "" = Except.ok [] :=
  ⟨rfl, rfl, rfl⟩

/-- Shape of any by-collection document: it lands at the theme path (the
root when the path is empty) and is named after the collection's normalized
name, in every theme mode. -/
theorem combinedCollection_shape_general (cfg : ExporterConfiguration)
    (c : Collection) (tokens : List Token) (groups : List TokenGroup)
    (tp : String) (theme : Option Theme) (cols : List Collection)
    (f : OutputFile)
    (h : combinedCollectionStyleOutputFile cfg c tokens groups tp theme cols =
      some f) :
    f.path = (if tp == "" then "./" else "./" ++ tp) ∧
    f.name = kebabName c.name ++ ".json" := by
  unfold combinedCollectionStyleOutputFile at h
  cases theme with
  | none =>
    dsimp only at h
    cases hobj : processTokensToObject
        (tokens.filter (fun t => t.collectionId == some c.persistentId))
        groups none cols tokens with
    | none =>
      rw [hobj] at h
      exact Option.noConfusion h
    | some obj =>
      rw [hobj] at h
      dsimp only at h
      cases h
      exact ⟨rfl, rfl⟩
  | some th =>
    dsimp only at h
    by_cases hcond : (tp != "" && cfg.exportOnlyThemedTokens) = true
    · rw [if_pos hcond] at h
      cases hobj : processTokensToObject
          (filterThemedTokens
            (tokens.filter (fun t => t.collectionId == some c.persistentId))
            th)
          groups (some th) cols tokens with
      | none =>
        rw [hobj] at h
        exact Option.noConfusion h
      | some obj =>
        rw [hobj] at h
        dsimp only at h
        cases h
        exact ⟨rfl, rfl⟩
    · rw [if_neg hcond] at h
      cases hobj : processTokensToObject
          (tokens.filter (fun t => t.collectionId == some c.persistentId))
          groups (some th) cols tokens with
      | none =>
        rw [hobj] at h
        exact Option.noConfusion h
      | some obj =>
        rw [hobj] at h
        dsimp only at h
        cases h
        exact ⟨rfl, rfl⟩

/-- A file under the `themed` directory never carries a root-level identity
key (the third character of the keys already differs). -/
theorem themed_root_id_ne (a b : String) :
    "./" ++ "themed" ++ "/" ++ a ≠ "./" ++ "/" ++ b := by
  intro h
  have h2 : ("./" ++ "themed" ++ "/" ++ a).data.get? 2 =
      ("./" ++ "/" ++ b).data.get? 2 := by rw [h]
  have hl : ("./" ++ "themed" ++ "/" ++ a).data.get? 2 = some 't' := rfl
  have hr : ("./" ++ "/" ++ b).data.get? 2 = some '/' := rfl
  rw [hl, hr] at h2
  exact absurd h2 (by decide)

/-- The merged-theme documents (all under the `themed` directory) never carry
a root-level identity key. -/
theorem mergedThemedFiles_root_filter_nil (cfg : ExporterConfiguration)
    (cols : List Collection) (lst : List Collection)
    (themedTokens : List Token) (groups : List TokenGroup)
    (headTheme : Option Theme) (n : String) :
    ((lst.filterMap (fun collection => combinedCollectionStyleOutputFile cfg
        collection themedTokens groups "themed" headTheme cols)).filter
      (fun f => fileId f == "./" ++ "/" ++ n)) = [] := by
  rw [List.filter_eq_nil_iff]
  intro f hf hp
  rw [List.mem_filterMap] at hf
  obtain ⟨c2, _, hbo⟩ := hf
  have hshape := combinedCollection_shape_general cfg c2 themedTokens groups
    "themed" headTheme cols f hbo
  have hpath : f.path = "./" ++ "themed" := hshape.1
  have hfid := eq_of_beq hp
  unfold fileId at hfid
  rw [hpath, hshape.2] at hfid
  exact themed_root_id_ne (kebabName c2.name ++ ".json") n hfid

/-- C1 (amended): in ByCollection structure, (i) under the SeparateFiles
style the result contains exactly one document at the fixed root identity of
each global/alias collection regardless of `exportBaseValues` (provided the
global/alias collections have pairwise distinct normalized names); (ii) under
NestedThemes a global/alias collection's per-collection generation yields its
single root-level base document when `exportBaseValues` is on and nothing at
all otherwise; (iii) under MergedTheme the branch retains no document at a
global/alias collection's root identity when `exportBaseValues` is off, and
(iv) exactly one when it is on (provided the token-owning collections have
pairwise distinct normalized names); and (v) the themed generation sites
(components and residual collections of the SeparateFiles branch, and the
merged-theme collection set) never receive a global/alias collection, so no
global/alias-collection document is emitted into any theme partition. -/
theorem c1_amended_global_alias (cfg : ExporterConfiguration) (rand : String)
    (themesToApply : List Theme) (tokens : List Token)
    (tokenGroups : List TokenGroup) (tokenCollections : List Collection)
    (c : Collection) :
    ((globalAliasCollectionsOf tokenCollections tokens).Pairwise
        (fun a b => kebabName a.name ≠ kebabName b.name) →
      c ∈ globalAliasCollectionsOf tokenCollections tokens →
      ∃ doc, (separateFilesByCollection cfg rand themesToApply tokens
          tokenGroups tokenCollections).filter
        (fun f => f.path == "./" && f.name == (kebabName c.name ++ ".json")) =
        [doc]) ∧
    (isGlobalAliasName c.name = true →
      nestedCollectionValueFile cfg themesToApply tokens tokenGroups
        tokenCollections c =
        (if cfg.exportBaseValues then
          combinedCollectionStyleOutputFile cfg c tokens tokenGroups ""
            none tokenCollections
         else none)) ∧
    (cfg.fileStructure = FileStructure.separateByCollection →
      cfg.exportBaseValues = false →
      (mergedThemeBranch cfg themesToApply tokens tokenGroups
          tokenCollections).filter
        (fun f => f.path == "./" && f.name == (kebabName c.name ++ ".json")) =
        []) ∧
    (cfg.fileStructure = FileStructure.separateByCollection →
      cfg.exportBaseValues = true →
      (collectionsWithTokensOf tokenCollections tokens).Pairwise
        (fun a b => kebabName a.name ≠ kebabName b.name) →
      c ∈ collectionsWithTokensOf tokenCollections tokens →
      ∃ doc, (mergedThemeBranch cfg themesToApply tokens tokenGroups
          tokenCollections).filter
        (fun f => f.path == "./" && f.name == (kebabName c.name ++ ".json")) =
        [doc]) ∧
    ((c ∈ componentsCollectionsOf tokenCollections tokens ∨
      c ∈ sfOtherCollectionsOf tokenCollections tokens ∨
      c ∈ (collectionsWithTokensOf tokenCollections tokens).filter
        (fun d => !isGlobalAliasName d.name)) →
      isGlobalAliasName c.name = false) := by
  refine ⟨?_, ?_, ?_, ?_, ?_⟩
  · intro hdist hc
    have htokAll : ∀ c2 ∈ globalAliasCollectionsOf tokenCollections tokens,
        tokens.any (fun t => t.collectionId == some c2.persistentId) = true := by
      intro c2 hc2
      have h1 := (List.mem_filter.mp hc2).1
      exact (List.mem_filter.mp h1).2
    obtain ⟨doc, hpath, hname, hfilter⟩ := ga_filter_byId cfg tokens
      tokenGroups tokenCollections c
      (globalAliasCollectionsOf tokenCollections tokens) hdist htokAll hc
    obtain ⟨rest, hsplit⟩ := separateFilesByCollection_split cfg rand
      themesToApply tokens tokenGroups tokenCollections
    rw [hsplit]
    refine ⟨doc, ?_⟩
    have hbyId : (uniqueFiles
        (((globalAliasCollectionsOf tokenCollections tokens).filterMap
          (fun c2 => combinedCollectionStyleOutputFile cfg c2 tokens
            tokenGroups "" none tokenCollections)) ++ rest)).filter
        (fun f => fileId f == "./" ++ "/" ++ (kebabName c.name ++ ".json")) =
        [doc] := by
      rw [uniqueFiles_filter_take, List.filter_append, hfilter]
      rfl
    exact filter_byPair_of_byId _ _ doc hbyId hpath hname
  · intro hga
    unfold nestedCollectionValueFile
    rw [hga]
    rfl
  · intro hfs hbv
    unfold mergedThemeBranch
    rw [if_neg (by rw [hfs]; decide), if_pos hfs]
    dsimp only
    rw [hbv]
    rw [if_neg (by decide)]
    unfold processOutputFiles
    rw [List.nil_append]
    simp only [List.filterMap_map, Function.comp_def, id_eq]
    rw [List.filter_eq_nil_iff]
    intro f hf hp
    rw [List.mem_filterMap] at hf
    obtain ⟨c2, _, hbo⟩ := hf
    have hshape := combinedCollection_shape_general cfg c2
      (computeTokensByApplyingThemes tokens tokens themesToApply) tokenGroups
      "themed" themesToApply.head? tokenCollections f hbo
    have hpath : f.path = "./" ++ "themed" := hshape.1
    rw [Bool.and_eq_true] at hp
    have hpe := eq_of_beq hp.1
    exact absurd (hpath.symm.trans hpe) (by decide)
  · intro hfs hbv hdistAll hc
    have htokAll : ∀ c2 ∈ collectionsWithTokensOf tokenCollections tokens,
        tokens.any (fun t => t.collectionId == some c2.persistentId) = true :=
      fun c2 hc2 => (List.mem_filter.mp hc2).2
    obtain ⟨doc, hpath, hname, hfilter⟩ := ga_filter_byId cfg tokens
      tokenGroups tokenCollections c
      (collectionsWithTokensOf tokenCollections tokens) hdistAll htokAll hc
    refine ⟨doc, ?_⟩
    have hbyId : (mergedThemeBranch cfg themesToApply tokens tokenGroups
        tokenCollections).filter
        (fun f => fileId f == "./" ++ "/" ++ (kebabName c.name ++ ".json")) =
        [doc] := by
      unfold mergedThemeBranch
      rw [if_neg (by rw [hfs]; decide), if_pos hfs]
      dsimp only
      rw [hbv]
      rw [if_pos rfl]
      unfold processOutputFiles
      rw [List.filterMap_append]
      simp only [List.filterMap_map, Function.comp_def, id_eq]
      rw [List.filter_append, hfilter, mergedThemedFiles_root_filter_nil]
      rfl
    exact filter_byPair_of_byId _ _ doc hbyId hpath hname
  · rintro (hmem | hmem | hmem)
    · exact components_not_global_alias c.name (List.mem_filter.mp hmem).2
    · have h2 := (List.mem_filter.mp hmem).2
      rw [Bool.and_eq_true, Bool.and_eq_true] at h2
      obtain ⟨⟨h4, _⟩, _⟩ := h2
      rw [Bool.not_eq_true'] at h4
      exact h4
    · have h2 := (List.mem_filter.mp hmem).2
      rw [Bool.not_eq_true'] at h2
      exact h2

/-- C1 witness: the amended claim instantiated on a run with one global
collection (owning a token) and one theme: the SeparateFiles branch retains
exactly one root-level `global.json` document, the NestedThemes per-collection
site yields nothing when `exportBaseValues` is off, and the MergedTheme branch
retains nothing at the global root identity with the flag off and exactly one
document there with the flag on. -/
theorem c1_witness :
    (∃ doc, (separateFilesByCollection c1cfg "" [c4theme] c1inp.tokens
        c1inp.tokenGroups c1inp.tokenCollections).filter
      (fun f => f.path == "./" &&
        f.name == (kebabName c1collectionGlobal.name ++ ".json")) = [doc]) ∧
    nestedCollectionValueFile c1cfg [c4theme] c1inp.tokens c1inp.tokenGroups
      c1inp.tokenCollections c1collectionGlobal =
      (if c1cfg.exportBaseValues then
        combinedCollectionStyleOutputFile c1cfg c1collectionGlobal
          c1inp.tokens c1inp.tokenGroups "" none c1inp.tokenCollections
       else none) ∧
    (mergedThemeBranch c1cfg [c4theme] c1inp.tokens c1inp.tokenGroups
        c1inp.tokenCollections).filter
      (fun f => f.path == "./" &&
        f.name == (kebabName c1collectionGlobal.name ++ ".json")) = [] ∧
    (∃ doc, (mergedThemeBranch { c1cfg with exportBaseValues := true }
        [c4theme] c1inp.tokens c1inp.tokenGroups c1inp.tokenCollections).filter
      (fun f => f.path == "./" &&
        f.name == (kebabName c1collectionGlobal.name ++ ".json")) = [doc]) := by
  have h := c1_amended_global_alias c1cfg "" [c4theme] c1inp.tokens
    c1inp.tokenGroups c1inp.tokenCollections c1collectionGlobal
  have h2 := c1_amended_global_alias { c1cfg with exportBaseValues := true }
    "" [c4theme] c1inp.tokens c1inp.tokenGroups c1inp.tokenCollections
    c1collectionGlobal
  exact ⟨h.1 (by decide) (by decide), h.2.1 rfl, h.2.2.1 rfl rfl,
    h2.2.2.2.1 rfl rfl (by decide) (by decide)⟩

/-- C3 witness: requesting a theme id that matches no loaded theme makes the
whole composition abort with an error. -/
theorem c3_witness :
    ∃ e, pulsarExport c1cfg ⟨none, ["missing"]⟩ c1inp "" = Except.error e := by
  refine (c3_unresolved_identifier_aborts c1cfg ⟨none, ["missing"]⟩ c1inp "").mpr ?_
  right
  exact ⟨"missing", by decide, by decide⟩
